import Mathlib

/-!
Verification of the quiz-game session coordinator
(`tcp_quiz/server_tcp.py` and `udp_quiz/server_udp.py`).

The two servers are shallowly embedded: every handler body is translated
statement by statement into a pure Lean function from server state (plus the
inbound message's fields and the current wall-clock reading) to the new state
together with the list of outbound send events.  Wall-clock readings are
rationals, Python `int` is `ℤ`, Python `dict` (insertion-ordered) is an
association list.  `list.sort(key=..., reverse=True)` is a stable sort and is
embedded as `List.insertionSort` with the corresponding non-strict relation,
which coincides with a stable descending sort.
-/

namespace Quiz

/-- Python `str.strip()` whitespace set, restricted to ASCII (the protocol's
answer letters and padding live in ASCII, where CPython and this model agree). -/
def pySpace (c : Char) : Bool :=
  c = ' ' || c = '\t' || c = '\n' || c = '\r' || c = '\x0b' || c = '\x0c'

/-- Python `str.strip()`: drop leading and trailing whitespace. -/
def pyStrip (s : String) : String :=
  String.mk (((s.data.dropWhile pySpace).reverse.dropWhile pySpace).reverse)

/-- Python `str.upper()` on the ASCII fragment (`Char.toUpper` uppercases
exactly the ASCII letters, which is all the protocol uses). -/
def pyUpper (s : String) : String :=
  String.mk (s.data.map Char.toUpper)

/-- Python `int(x)` applied to a real number: truncation toward zero. -/
def pyInt (q : ℚ) : ℤ :=
  if 0 ≤ q then ⌊q⌋ else ⌈q⌉

/-- One record of the question bank: `{'question': ..., 'options': ...,
'answer': ...}` as built by `load_questions`. -/
structure Question where
  question : String
  options : List String
  answer : String
deriving DecidableEq, Repr

/-- Python-dict lookup `d.get(k)` / `k in d` on an insertion-ordered
association list. -/
def lookupA {β : Type} (l : List (Nat × β)) (k : Nat) : Option β :=
  match l with
  | [] => none
  | (k', v) :: rest => if k' = k then some v else lookupA rest k

/-- Python-dict assignment `d[k] = v`: replace in place when the key exists,
otherwise append (dicts preserve insertion order). -/
def insertA {β : Type} (l : List (Nat × β)) (k : Nat) (v : β) : List (Nat × β) :=
  match l with
  | [] => [(k, v)]
  | (k', v') :: rest => if k' = k then (k, v) :: rest else (k', v') :: insertA rest k v

/-- Python-dict deletion `del d[k]` (no-op when absent, matching the guarded
uses in the source). -/
def eraseA {β : Type} (l : List (Nat × β)) (k : Nat) : List (Nat × β) :=
  match l with
  | [] => []
  | (k', v') :: rest => if k' = k then rest else (k', v') :: eraseA rest k

/-- Python-dict field update `d[k]['f'] = ...`: modify the value at a key. -/
def updateA {β : Type} (l : List (Nat × β)) (k : Nat) (f : β → β) : List (Nat × β) :=
  l.map (fun kv => if kv.1 = k then (kv.1, f kv.2) else kv)

/-- Keys of the association list, in insertion order (`d.keys()`). -/
def keysA {β : Type} (l : List (Nat × β)) : List Nat :=
  l.map Prod.fst

end Quiz

namespace TCP

open Quiz

/-- `QUESTION_TIME_LIMIT = 10` in `server_tcp.py`. -/
def QUESTION_TIME_LIMIT : ℚ := 10

/-- A client's TCP socket.  `fails = true` models a socket whose `sendall`
raises (a broken connection); the id ties events to the client. -/
structure Conn where
  id : Nat
  fails : Bool
deriving DecidableEq, Repr

/-- A final/mid-game leaderboard entry `{'name': ..., 'score': ...}`. -/
structure LBEntry where
  name : Option String
  score : ℤ
deriving DecidableEq, Repr

/-- Payloads of the server's outbound messages, one constructor per
`send_message`/`broadcast_message` call site in `server_tcp.py`. -/
inductive Payload where
  | errorMsg (message : String)
  | registered (message : String) (player_count : Nat) (is_host : Bool)
  | player_joined (player_name : String) (total_players : Nat)
  | answer_result (correct : Bool) (correct_answer : String) (points : ℤ)
      (total_score : ℤ) (time_taken : ℚ)
  | game_start (message : String) (total_questions : Nat)
  | question (question_number : Nat) (total_questions : Nat) (question : String)
      (options : List String) (time_limit : ℚ)
  | question_end (correct_answer : String) (question_number : Nat)
  | leaderboard (entries : List LBEntry) (round : Nat) (total_rounds : Nat)
  | game_end (entries : List LBEntry) (message : String)
  | host_update (host_name : Option String)
  | statusReply (active_game : Bool) (player_count : Nat) (current_question : Nat)
deriving DecidableEq, Repr

/-- Observable effects of a handler: a successful `sendall` of a payload to a
connection, a send error caught and printed inside `send_message`, or a Python
exception escaping the handler (caught by the per-client receive loop). -/
inductive Ev where
  | sent (cid : Nat) (p : Payload)
  | sendErr (cid : Nat)
  | pyErr
  | spawnedGameLoop
deriving DecidableEq, Repr

/-- The per-client record held in `self.clients`. -/
structure Client where
  conn : Conn
  name : Option String
  score : ℤ
  answers : List String
  answer_times : List ℚ
deriving DecidableEq, Repr

/-- `TCPQuizServer` mutable state (the fields the handlers touch). -/
structure State where
  questions : List Question
  clients : List (Nat × Client)
  connection_counter : Nat
  active_game : Bool
  current_question_index : Nat
  question_start_time : Option ℚ
  host_conn_id : Option Nat
deriving DecidableEq, Repr

/-- `conn.sendall(...)`: raises exactly when the socket is broken. -/
def sendall (conn : Conn) : Except String Unit :=
  if conn.fails then Except.error "send failed" else Except.ok ()

/-- Body of `send_message`: `try: conn.sendall(...) except Exception as e:
print(...)`.  The only fallible operation is wrapped, so the function itself
never raises; its result is the event it produced. -/
def sendMessage (conn : Conn) (p : Payload) : List Ev :=
  match sendall conn with
  | Except.ok _ => [Ev.sent conn.id p]
  | Except.error _ => [Ev.sendErr conn.id]

/-- The fan-out loop of `broadcast_message`: for every client other than
`exclude`, run the `try: send_message ... except: disconnected.append...`
block.  Returns the events and the `disconnected` list; since `send_message`
traps its only fallible operation, the except branch never fires and the
second component is always `[]` (proved below as `broadcast_disconnected_nil`). -/
def broadcastEvents (clients : List (Nat × Client)) (p : Payload)
    (exclude : Option Nat) : List Ev × List Nat :=
  match clients with
  | [] => ([], [])
  | (cid, cl) :: rest =>
    let (evs, disc) := broadcastEvents rest p exclude
    if exclude = some cid then (evs, disc)
    else (sendMessage cl.conn p ++ evs, disc)

/-- Ascending `sorted(self.clients.keys())` used for host re-election. -/
def sortedKeys (clients : List (Nat × Client)) : List Nat :=
  List.insertionSort (fun a b => a ≤ b) (keysA clients)

/-- `remove_client`: delete the entry, then re-elect the host when the removed
client held it — new host is `sorted(keys)[0]` of the remaining registry, and a
`host_update` is broadcast to the remaining clients.  The broadcast's
post-loop removal pass acts on `broadcastEvents`'s `disconnected` component,
which is always empty (`broadcast_disconnected_nil`), so it is elided here to
break the otherwise ill-founded `remove_client`/`broadcast_message` recursion. -/
def removeClient (s : State) (cid : Nat) : State × List Ev :=
  match lookupA s.clients cid with
  | none => (s, [])
  | some _ =>
    let clients' := eraseA s.clients cid
    if s.host_conn_id = some cid then
      match clients' with
      | [] => ({ s with clients := clients', host_conn_id := none }, [])
      | _ :: _ =>
        let newHostId := (sortedKeys clients').headI
        let s' := { s with clients := clients', host_conn_id := some newHostId }
        let newHostName := (lookupA clients' newHostId).bind Client.name
        let (evs, _) := broadcastEvents clients' (Payload.host_update newHostName) none
        (s', evs)
    else ({ s with clients := clients' }, [])

/-- `broadcast_message`: fan out, then remove every client collected in
`disconnected` (an empty list, as `broadcast_disconnected_nil` shows). -/
def broadcastMessage (s : State) (p : Payload) (exclude : Option Nat) :
    State × List Ev :=
  let (evs, disc) := broadcastEvents s.clients p exclude
  disc.foldl (fun acc cid =>
    let (s', evs') := removeClient acc.1 cid
    (s', acc.2 ++ evs')) (s, evs)

/-- `handle_client_register`. -/
def handleClientRegister (s : State) (cid : Nat) (conn : Conn)
    (nameField : Option String) : State × List Ev :=
  if s.active_game then
    (s, sendMessage conn (Payload.errorMsg "Game already in progress"))
  else
    match lookupA s.clients cid with
    | none => (s, [Ev.pyErr])
    | some _ =>
      let player_name := nameField.getD ("Player_" ++ toString cid)
      let clients' := updateA s.clients cid (fun c =>
        { c with name := some player_name, score := 0, answers := [], answer_times := [] })
      let s' := { s with clients := clients' }
      let evs := sendMessage conn (Payload.registered ("Welcome " ++ player_name ++ "!")
        clients'.length (decide (s.host_conn_id = some cid)))
      let (s'', evs') := broadcastMessage s'
        (Payload.player_joined player_name clients'.length) (some cid)
      (s'', evs ++ evs')

/-- `handle_client_answer`.  `now` is the `time.time()` reading; when
`question_start_time` is still `None` the subtraction raises a `TypeError`
before any state mutation (caught by the receive loop), modelled by `pyErr`. -/
def handleClientAnswer (s : State) (cid : Nat) (conn : Conn)
    (answerField : String) (now : ℚ) : State × List Ev :=
  match lookupA s.clients cid with
  | none => (s, [])
  | some client =>
    if ¬ s.active_game ∨ s.questions.length ≤ s.current_question_index then (s, [])
    else if s.current_question_index < client.answers.length then (s, [])
    else
      let answer := pyStrip (pyUpper answerField)
      match s.questions[s.current_question_index]? with
      | none => (s, [Ev.pyErr])
      | some question =>
        let correct_answer := pyStrip question.answer
        let is_correct := answer = correct_answer
        match s.question_start_time with
        | none => (s, [Ev.pyErr])
        | some t0 =>
          let time_taken := now - t0
          let withAnswer := { client with
            answers := client.answers ++ [answer],
            answer_times := client.answer_times ++ [time_taken] }
          let (points, scored) : ℤ × Client :=
            if is_correct then
              let p : ℤ := max 1 (pyInt ((QUESTION_TIME_LIMIT - time_taken) / 5) + 1)
              (p, { withAnswer with score := withAnswer.score + p })
            else (0, withAnswer)
          let s' := { s with clients := insertA s.clients cid scored }
          (s', sendMessage conn (Payload.answer_result (decide is_correct)
            correct_answer points scored.score time_taken))

/-- `start_game` (lock-held section; spawning the game-loop thread is recorded
as an event, its steps are separate actions below). -/
def startGame (s : State) : State × List Ev :=
  if s.clients.length = 0 then (s, [])
  else if s.active_game then (s, [])
  else
    let clients' := s.clients.map (fun kv =>
      (kv.1, { kv.2 with score := 0, answers := [], answer_times := [] }))
    let s' := { s with active_game := true, current_question_index := 0, clients := clients' }
    let (s'', evs) := broadcastMessage s'
      (Payload.game_start "Game starting!" s.questions.length) none
    (s'', evs ++ [Ev.spawnedGameLoop])

/-- One game-loop iteration's opening section for question `i`: record the
round index and start time under the lock, then broadcast the question.  The
loop variable satisfies `i < len(questions)` by construction of
`enumerate(self.questions)`, hence the guard. -/
def beginRound (s : State) (i : Nat) (t : ℚ) : State × List Ev :=
  if s.active_game ∧ i < s.questions.length then
    match s.questions[i]? with
    | none => (s, [Ev.pyErr])
    | some q =>
      let s' := { s with current_question_index := i, question_start_time := some t }
      broadcastMessage s' (Payload.question (i + 1) s.questions.length q.question
        q.options QUESTION_TIME_LIMIT) none
  else (s, [])

/-- Mid-game leaderboard entries built from the registry, before sorting. -/
def lbEntries (clients : List (Nat × Client)) : List LBEntry :=
  clients.map (fun kv => { name := kv.2.name, score := kv.2.score })

/-- `leaderboard.sort(key=lambda x: x['score'], reverse=True)`: CPython's sort
is stable, and a stable descending sort by score coincides with insertion sort
under the non-strict relation below. -/
def sortLeaderboard (l : List LBEntry) : List LBEntry :=
  List.insertionSort (fun a b => b.score ≤ a.score) l

/-- The game loop's end-of-round section for question `i`: under the lock, if
still active, broadcast the correct answer and a sorted leaderboard snapshot. -/
def endRound (s : State) (i : Nat) : State × List Ev :=
  if s.active_game then
    match s.questions[i]? with
    | none => (s, [Ev.pyErr])
    | some q =>
      let (s', evs) := broadcastMessage s (Payload.question_end q.answer (i + 1)) none
      let lb := sortLeaderboard (lbEntries s'.clients)
      let (s'', evs') := broadcastMessage s'
        (Payload.leaderboard lb (i + 1) s'.questions.length) none
      (s'', evs ++ evs')
  else (s, [])

/-- The final-leaderboard value computed by `end_game`. -/
def finalLeaderboard (s : State) : List LBEntry :=
  sortLeaderboard (lbEntries s.clients)

/-- `end_game`: deactivate, broadcast the sorted final leaderboard, reset the
question index. -/
def endGame (s : State) : State × List Ev :=
  let s' := { s with active_game := false }
  let lb := finalLeaderboard s'
  let (s'', evs) := broadcastMessage s' (Payload.game_end lb "Game finished!") none
  ({ s'' with current_question_index := 0 }, evs)

/-- `handle_request_start_game` (the successful branch spawns `start_game` on a
thread; the spawned work is the separate `Act.startGame` action). -/
def handleRequestStartGame (s : State) (cid : Nat) (conn : Conn) : State × List Ev :=
  if s.host_conn_id = none ∨ ¬ s.host_conn_id = some cid then
    (s, sendMessage conn (Payload.errorMsg "Only the host can start the game"))
  else
    match lookupA s.clients cid with
    | none => (s, sendMessage conn (Payload.errorMsg "Not registered"))
    | some _ =>
      if ¬ s.active_game ∧ 0 < s.clients.length then (s, [])
      else (s, sendMessage conn (Payload.errorMsg "Cannot start game now"))

/-- The connection-accept prologue of `handle_client`: allocate a connection
id, create the blank registry entry, assign the host if none exists. -/
def connect (s : State) (fails : Bool) : State × List Ev :=
  let cid := s.connection_counter
  let cl : Client := { conn := { id := cid, fails := fails }, name := none, score := 0, answers := [], answer_times := [] }
  let hostAssigned := if s.host_conn_id = none then some cid else s.host_conn_id
  let s' := { s with connection_counter := cid + 1, clients := insertA s.clients cid cl, host_conn_id := hostAssigned }
  (s', [])

/-- `get_status` reply. -/
def getStatus (s : State) (conn : Conn) : State × List Ev :=
  (s, sendMessage conn (Payload.statusReply s.active_game s.clients.length
    s.current_question_index))

/-- The atomic (lock-delimited) sections in which the server mutates or reads
its state: inbound-message dispatch plus the game loop's sections. -/
inductive Act where
  | connect (fails : Bool)
  | register (cid : Nat) (conn : Conn) (nameField : Option String)
  | answer (cid : Nat) (conn : Conn) (answerField : String) (now : ℚ)
  | reqStart (cid : Nat) (conn : Conn)
  | startGame
  | beginRound (i : Nat) (t : ℚ)
  | endRound (i : Nat)
  | endGame
  | disconnect (cid : Nat)
  | getStatus (conn : Conn)

/-- Apply one atomic section. -/
def step (s : State) (a : Act) : State × List Ev :=
  match a with
  | Act.connect fails => connect s fails
  | Act.register cid conn nm => handleClientRegister s cid conn nm
  | Act.answer cid conn ans now => handleClientAnswer s cid conn ans now
  | Act.reqStart cid conn => handleRequestStartGame s cid conn
  | Act.startGame => startGame s
  | Act.beginRound i t => beginRound s i t
  | Act.endRound i => endRound s i
  | Act.endGame => endGame s
  | Act.disconnect cid => removeClient s cid
  | Act.getStatus conn => getStatus s conn

/-- Run a sequence of atomic sections, accumulating events. -/
def run (s : State) (acts : List Act) : State × List Ev :=
  match acts with
  | [] => (s, [])
  | a :: rest =>
    let (s', evs) := step s a
    let (s'', evs') := run s' rest
    (s'', evs ++ evs')

/-- A fresh server (`__init__`) holding question bank `qs`. -/
def initState (qs : List Question) : State :=
  { questions := qs, clients := [], connection_counter := 0, active_game := false,
    current_question_index := 0, question_start_time := none, host_conn_id := none }

end TCP

namespace UDP

open Quiz

/-- `QUESTION_TIME_LIMIT = 10` in `server_udp.py`. -/
def QUESTION_TIME_LIMIT : ℚ := 10

/-- A client's identity: its source network address `(host, port)`. -/
structure Addr where
  host : String
  port : Nat
deriving DecidableEq, Repr

/-- The per-client record held in `self.clients` (keyed by address). -/
structure Client where
  name : String
  score : ℤ
  answers : List String
  answer_times : List ℚ
deriving DecidableEq, Repr

/-- A final leaderboard entry (the UDP variant includes the address). -/
structure LBEntry where
  name : String
  score : ℤ
  address : String
deriving DecidableEq, Repr

/-- Payloads of the UDP server's outbound messages, one constructor per
`send_message`/`broadcast_message` call site in `server_udp.py`. -/
inductive Payload where
  | errorMsg (message : String)
  | registered (message : String) (player_count : Nat)
  | answer_result (correct : Bool) (correct_answer : String) (points : ℤ)
      (total_score : ℤ) (time_taken : ℚ)
  | game_start (message : String) (total_questions : Nat)
  | question (question_number : Nat) (total_questions : Nat) (question : String)
      (options : List String) (time_limit : ℚ)
  | question_end (correct_answer : String) (question_number : Nat)
  | game_end (entries : List LBEntry) (message : String)
  | statusReply (active_game : Bool) (player_count : Nat) (current_question : Nat)
  | heartbeat (note : String)
deriving DecidableEq, Repr

/-- One datagram handed to `sock.sendto`: destination, payload, and the
sequence number stamped by `_next_seq`. -/
structure Sent where
  addr : Addr
  payload : Payload
  seq : Nat
deriving DecidableEq, Repr

/-- Address-keyed association-list lookup (`address in self.clients`). -/
def lookupC (l : List (Addr × Client)) (k : Addr) : Option Client :=
  match l with
  | [] => none
  | (k', v) :: rest => if k' = k then some v else lookupC rest k

/-- Address-keyed dict assignment (replace in place or append). -/
def insertC (l : List (Addr × Client)) (k : Addr) (v : Client) : List (Addr × Client) :=
  match l with
  | [] => [(k, v)]
  | (k', v') :: rest => if k' = k then (k, v) :: rest else (k', v') :: insertC rest k v

/-- `UDPQuizServer` mutable state (the fields the handlers touch). -/
structure State where
  questions : List Question
  clients : List (Addr × Client)
  active_game : Bool
  current_question_index : Nat
  question_start_time : Option ℚ
  seq : Nat
deriving DecidableEq, Repr

/-- `_next_seq`: increment and return the counter. -/
def nextSeq (s : State) : State × Nat :=
  ({ s with seq := s.seq + 1 }, s.seq + 1)

/-- `send_message`: stamp the next sequence number and emit one datagram
(`sendto` failures are caught and printed; the datagram still consumed its
sequence number before the send, so they do not affect any claim here). -/
def sendMessage (s : State) (a : Addr) (p : Payload) : State × List Sent :=
  let (s', n) := nextSeq s
  (s', [{ addr := a, payload := p, seq := n }])

/-- Send one payload to each address of a list in order (the loop body of
`broadcast_message`). -/
def sendToAll (s : State) (addrs : List Addr) (p : Payload) : State × List Sent :=
  match addrs with
  | [] => (s, [])
  | a :: rest =>
    let (s1, e1) := sendMessage s a p
    let (s2, e2) := sendToAll s1 rest p
    (s2, e1 ++ e2)

/-- `broadcast_message`: send to every client address other than `exclude`. -/
def broadcastMessage (s : State) (p : Payload) (exclude : Option Addr) :
    State × List Sent :=
  sendToAll s ((s.clients.map Prod.fst).filter (fun a => ¬ exclude = some a)) p

/-- `handle_client_register`. -/
def handleClientRegister (s : State) (a : Addr) (nameField : Option String) :
    State × List Sent :=
  if s.active_game then
    sendMessage s a (Payload.errorMsg "Game already in progress")
  else
    let player_name := nameField.getD ("Player_" ++ toString a.port)
    let clients' := insertC s.clients a
      { name := player_name, score := 0, answers := [], answer_times := [] }
    let s' := { s with clients := clients' }
    sendMessage s' a (Payload.registered ("Welcome " ++ player_name ++ "!") clients'.length)

/-- `handle_client_answer` (identical logic to the TCP variant; replies go to
the source address and carry a sequence number). -/
def handleClientAnswer (s : State) (a : Addr) (answerField : String) (now : ℚ) :
    State × List Sent :=
  match lookupC s.clients a with
  | none => (s, [])
  | some client =>
    if ¬ s.active_game ∨ s.questions.length ≤ s.current_question_index then (s, [])
    else if s.current_question_index < client.answers.length then (s, [])
    else
      let answer := pyStrip (pyUpper answerField)
      match s.questions[s.current_question_index]? with
      | none => (s, [])
      | some question =>
        let correct_answer := pyStrip question.answer
        let is_correct := answer = correct_answer
        match s.question_start_time with
        | none => (s, [])
        | some t0 =>
          let time_taken := now - t0
          let withAnswer := { client with
            answers := client.answers ++ [answer],
            answer_times := client.answer_times ++ [time_taken] }
          let (points, scored) : ℤ × Client :=
            if is_correct then
              let p : ℤ := max 1 (pyInt ((QUESTION_TIME_LIMIT - time_taken) / 5) + 1)
              (p, { withAnswer with score := withAnswer.score + p })
            else (0, withAnswer)
          let s' := { s with clients := insertC s.clients a scored }
          sendMessage s' a (Payload.answer_result (decide is_correct) correct_answer
            points scored.score time_taken)

/-- `start_game` (lock-held section; the spawned game loop's sections are the
separate round actions below). -/
def startGame (s : State) : State × List Sent :=
  if s.clients.length = 0 then (s, [])
  else if s.active_game then (s, [])
  else
    let clients' := s.clients.map (fun kv =>
      (kv.1, { kv.2 with score := 0, answers := [], answer_times := [] }))
    let s' := { s with active_game := true, current_question_index := 0, clients := clients' }
    broadcastMessage s' (Payload.game_start "Game starting!" s.questions.length) none

/-- Game-loop opening section for question `i`: set index and start time under
the lock, then broadcast the question (`i < len(questions)` holds for every
index produced by `enumerate(self.questions)`). -/
def beginRound (s : State) (i : Nat) (t : ℚ) : State × List Sent :=
  if s.active_game ∧ i < s.questions.length then
    match s.questions[i]? with
    | none => (s, [])
    | some q =>
      let s' := { s with current_question_index := i, question_start_time := some t }
      broadcastMessage s' (Payload.question (i + 1) s.questions.length q.question
        q.options QUESTION_TIME_LIMIT) none
  else (s, [])

/-- Periodic in-window rebroadcast of the current question. -/
def rebroadcast (s : State) (i : Nat) : State × List Sent :=
  match s.questions[i]? with
  | none => (s, [])
  | some q =>
    broadcastMessage s (Payload.question (i + 1) s.questions.length q.question
      q.options QUESTION_TIME_LIMIT) none

/-- Game-loop end-of-round section: if still active, broadcast the correct
answer (the UDP variant sends no mid-game leaderboard). -/
def endRound (s : State) (i : Nat) : State × List Sent :=
  if s.active_game then
    match s.questions[i]? with
    | none => (s, [])
    | some q => broadcastMessage s (Payload.question_end q.answer (i + 1)) none
  else (s, [])

/-- The sorted final-leaderboard value computed by `end_game`. -/
def finalLeaderboard (s : State) : List LBEntry :=
  List.insertionSort (fun a b => b.score ≤ a.score)
    (s.clients.map (fun kv =>
      { name := kv.2.name, score := kv.2.score,
        address := kv.1.host ++ ":" ++ toString kv.1.port }))

/-- `end_game`: deactivate, broadcast the sorted final leaderboard, reset the
question index. -/
def endGame (s : State) : State × List Sent :=
  let s' := { s with active_game := false }
  let lb := finalLeaderboard s'
  let (s'', evs) := broadcastMessage s' (Payload.game_end lb "Game finished!") none
  ({ s'' with current_question_index := 0 }, evs)

/-- `handle_request_start_game` (the successful branch spawns `start_game`,
modelled by the separate `Act.startGame` action). -/
def handleRequestStartGame (s : State) (a : Addr) : State × List Sent :=
  match lookupC s.clients a with
  | none => sendMessage s a (Payload.errorMsg "Not registered")
  | some _ =>
    if ¬ s.active_game ∧ 0 < s.clients.length then (s, [])
    else sendMessage s a (Payload.errorMsg "Cannot start game now")

/-- `get_status` reply. -/
def getStatus (s : State) (a : Addr) : State × List Sent :=
  sendMessage s a (Payload.statusReply s.active_game s.clients.length
    s.current_question_index)

/-- The heartbeat broadcast in `run` (sent only when clients exist). -/
def heartbeat (s : State) : State × List Sent :=
  if s.clients.length = 0 then (s, [])
  else broadcastMessage s (Payload.heartbeat "server heartbeat") none

/-- Every section in which the UDP server sends messages or mutates state:
inbound dispatch (including the error replies of the receive loop), the
game-loop sections, and the heartbeat.  In the source only the
`with self.game_lock` blocks are mutually exclusive; the question broadcast
and rebroadcast, the heartbeat, and the status/error replies send *without*
holding the lock, so a run over these actions is one serialized order of the
sections, not a guarantee that the program cannot interleave them.  This
serialization is faithful for the lock-guarded session-state fields
(`clients`, `active_game`, `current_question_index`, `question_start_time`)
and for any single serialized order of sends; the sequence counter's behavior
under genuinely overlapping sends is modelled separately by `microStep` and
`microRun` below. -/
inductive Act where
  | register (a : Addr) (nameField : Option String)
  | answer (a : Addr) (answerField : String) (now : ℚ)
  | reqStart (a : Addr)
  | getStatus (a : Addr)
  | unknownType (a : Addr)
  | badJson (a : Addr)
  | startGame
  | beginRound (i : Nat) (t : ℚ)
  | rebroadcast (i : Nat)
  | endRound (i : Nat)
  | endGame
  | heartbeat

/-- Apply one section. -/
def step (s : State) (a : Act) : State × List Sent :=
  match a with
  | Act.register a nm => handleClientRegister s a nm
  | Act.answer a ans now => handleClientAnswer s a ans now
  | Act.reqStart a => handleRequestStartGame s a
  | Act.getStatus a => getStatus s a
  | Act.unknownType a => sendMessage s a (Payload.errorMsg "Unknown message type")
  | Act.badJson a => sendMessage s a (Payload.errorMsg "Invalid JSON")
  | Act.startGame => startGame s
  | Act.beginRound i t => beginRound s i t
  | Act.rebroadcast i => rebroadcast s i
  | Act.endRound i => endRound s i
  | Act.endGame => endGame s
  | Act.heartbeat => heartbeat s

/-- Run one serialized order of sections, accumulating the outbound
datagrams (see the caveat on `Act`). -/
def run (s : State) (acts : List Act) : State × List Sent :=
  match acts with
  | [] => (s, [])
  | a :: rest =>
    let (s', evs) := step s a
    let (s'', evs') := run s' rest
    (s'', evs ++ evs')

/-- A fresh server (`__init__`) holding question bank `qs`; `seq` starts at 0. -/
def initState (qs : List Question) : State :=
  { questions := qs, clients := [], active_game := false,
    current_question_index := 0, question_start_time := none, seq := 0 }

/-- Sequence-number coherence of one computation starting from `s`: the final
counter advanced by the number of datagrams sent, and the datagrams carry the
consecutive sequence numbers starting right above the initial counter. -/
def SeqOK (s : State) (out : State × List Sent) : Prop :=
  out.1.seq = s.seq + out.2.length ∧
    out.2.map Sent.seq = List.range' (s.seq + 1) out.2.length

/-- One thread's progress through the body of `send_message`'s sequencing,
at CPython attribute-access granularity.  `_next_seq` runs
`self.seq += 1; return self.seq`, and `send_message` then passes the returned
value to `sendto`; none of this holds `game_lock`, and the interpreter may
preempt a thread between any two of these accesses.  The micro-steps are:
pc 0 — load `self.seq` into `tmp` (the read half of `+=`);
pc 1 — store `tmp + 1` back to `self.seq` (the write half of `+=`);
pc 2 — load `self.seq` again as the return value (`stamp`);
pc 3 — emit the datagram carrying `stamp` via `sendto`. -/
structure ThreadView where
  pc : Nat
  tmp : Nat
  stamp : Nat
deriving DecidableEq, Repr

/-- Execute one micro-step of a thread against the shared counter: returns the
new counter, the new thread view, and the stamped datagram if this step was
the `sendto`. -/
def microStep (seq : Nat) (t : ThreadView) : Nat × ThreadView × Option Nat :=
  match t.pc with
  | 0 => (seq, { t with pc := 1, tmp := seq }, none)
  | 1 => (t.tmp + 1, { t with pc := 2 }, none)
  | 2 => (seq, { t with pc := 3, stamp := seq }, none)
  | 3 => (seq, { t with pc := 4 }, some t.stamp)
  | _ => (seq, t, none)

/-- Interleave two concurrent `send_message` calls (thread `a` and thread `b`)
under a schedule (`false` steps thread `a`, `true` steps thread `b`),
collecting the emitted sequence numbers in emission order. -/
def microRun (seq : Nat) (a b : ThreadView) (sched : List Bool) : List Nat :=
  match sched with
  | [] => []
  | side :: rest =>
    if side then
      let (seq', b', out) := microStep seq b
      out.toList ++ microRun seq' a b' rest
    else
      let (seq', a', out) := microStep seq a
      out.toList ++ microRun seq' a' b rest

/-- A thread that has not started its `send_message` call yet. -/
def initThread : ThreadView := { pc := 0, tmp := 0, stamp := 0 }

end UDP

namespace Quiz

/-- Lowercase form of a string (ASCII), used to state the normalization claim
about submitted answers. -/
def pyLower (s : String) : String :=
  String.mk (s.data.map Char.toLower)

/-- Concrete two-option question with correct letter A. -/
def qA : Question :=
  { question := "What is 1+1?", options := ["A) 2", "B) 3"], answer := "A" }

/-- Concrete two-option question with correct letter B. -/
def qB : Question :=
  { question := "Capital of France?", options := ["A) Rome", "B) Paris"], answer := "B" }

end Quiz

namespace TCP

open Quiz

/-- A healthy client socket with the given connection id. -/
def okConn (n : Nat) : Conn := { id := n, fails := false }

/-- A registered test client record. -/
def mkClient (n : Nat) (nm : String) : Client :=
  { conn := okConn n, name := some nm, score := 0, answers := [], answer_times := [] }

/-- Run prefix for the duplicate-answer scenario: one player registers, the
game starts with two questions, the player skips round 0, round 1 begins. -/
def c1ActsMid : List Act :=
  [Act.connect false, Act.register 0 (okConn 0) (some "Alice"), Act.startGame,
   Act.beginRound 0 0, Act.endRound 0, Act.beginRound 1 100]

/-- State reached after `c1ActsMid`. -/
def c1Mid : State := (run (initState [qA, qB]) c1ActsMid).1

/-- `c1Mid` after one submission of the (correct) letter B in round 1. -/
def c1One : State := (handleClientAnswer c1Mid 0 (okConn 0) "B" 101).1

/-- `c1One` after a second submission of the same letter for the same round. -/
def c1Two : State := (handleClientAnswer c1One 0 (okConn 0) "B" 102).1

/-- Run prefix for the late-answer scenario: one player, game started, round 0
begun at time 0. -/
def c2ActsMid : List Act :=
  [Act.connect false, Act.register 0 (okConn 0) (some "Alice"), Act.startGame,
   Act.beginRound 0 0]

/-- State reached after `c2ActsMid`. -/
def c2Mid : State := (run (initState [qA]) c2ActsMid).1

/-- The handler applied to a correct answer arriving 11 seconds after the
start of a round with a 10-second limit (the round is still current: the game
loop advances the index only when the next round begins). -/
def c2Late : State × List Ev := handleClientAnswer c2Mid 0 (okConn 0) "A" 11

/-- Registry with one healthy client (id 0) and one whose socket fails (id 1). -/
def c3State : State :=
  { questions := [qA],
    clients := [(0, mkClient 0 "Alice"), (1, { mkClient 1 "Bob" with conn := { id := 1, fails := true } })],
    connection_counter := 2, active_game := false, current_question_index := 0,
    question_start_time := none, host_conn_id := some 0 }

/-- Three registered clients with host 0, about to lose the host. -/
def c4State : State :=
  { questions := [qA],
    clients := [(0, mkClient 0 "Ann"), (2, mkClient 2 "Cid"), (1, mkClient 1 "Ben")],
    connection_counter := 3, active_game := false, current_question_index := 0,
    question_start_time := none, host_conn_id := some 0 }

/-- Run for the leaderboard-completeness scenario: Alice and Bob register, the
game starts, Bob disconnects mid-game, the game ends. -/
def c5Acts : List Act :=
  [Act.connect false, Act.register 0 (okConn 0) (some "Alice"),
   Act.connect false, Act.register 1 (okConn 1) (some "Bob"),
   Act.startGame, Act.disconnect 1, Act.endGame]

/-- State just after the game started (Bob still registered). -/
def c5Started : State := (run (initState [qA]) (c5Acts.take 5)).1

/-- Full run of `c5Acts`: final state and all events. -/
def c5Out : State × List Ev := run (initState [qA]) c5Acts

/-- Minimal run reaching an active game: connect, register, start. -/
def c8Acts : List Act :=
  [Act.connect false, Act.register 0 (okConn 0) (some "Ann"), Act.startGame]

/-- State after `c8Acts` with a one-question bank: active, but the round start
time has not been set yet (the game loop has not begun round 0). -/
def c8StateA : State := (run (initState [qA]) c8Acts).1

/-- State after `c8Acts` with an empty question bank (loadable when
`questions.txt` is missing): active with `current_question_index = 0 = len`. -/
def c8StateB : State := (run (initState []) c8Acts).1

/-- A mid-round state used to witness the scoring theorems: one registered
player, round 0 of a one-question game begun at time 0. -/
def wMid : State := (run (initState [qA]) c2ActsMid).1

/-- The expected client record after the first round-1 submission in the
duplicate-answer scenario. -/
def c1AfterOne : Client :=
  { conn := okConn 0, name := some "Alice", score := 2, answers := ["B"], answer_times := [1] }

/-- The expected client record after the second submission for the same round. -/
def c1AfterTwo : Client :=
  { conn := okConn 0, name := some "Alice", score := 4, answers := ["B", "B"], answer_times := [1, 2] }

end TCP

namespace UDP

open Quiz

/-- Concrete client addresses. -/
def ad1 : Addr := { host := "10.0.0.1", port := 5001 }

/-- Second concrete client address. -/
def ad2 : Addr := { host := "10.0.0.2", port := 5002 }

/-- A registered UDP test client record. -/
def mkClient (nm : String) : Client :=
  { name := nm, score := 0, answers := [], answer_times := [] }

/-- Lobby state with one registered client (`ad2`), no active game. -/
def c6State : State :=
  { questions := [qA], clients := [(ad2, mkClient "Bob")], active_game := false,
    current_question_index := 0, question_start_time := none, seq := 0 }

/-- Empty-registry state: any source address is unregistered. -/
def c7State : State :=
  { questions := [qA], clients := [], active_game := false,
    current_question_index := 0, question_start_time := none, seq := 0 }

/-- A mid-round UDP state used to witness the scoring theorems: one registered
player (`ad1`), round 0 of a one-question game begun at time 0. -/
def wUdpMid : State :=
  { questions := [qA], clients := [(ad1, mkClient "Ann")], active_game := true,
    current_question_index := 0, question_start_time := some 0, seq := 7 }

/-- Minimal UDP run reaching an active game: register, then start. -/
def c8ActsU : List Act := [Act.register ad1 (some "Ann"), Act.startGame]

/-- State after `c8ActsU` on a fresh one-question UDP server. -/
def c8StateU : State := (run (initState [qA]) c8ActsU).1

end UDP

namespace Quiz

/-- Looking up the key just written returns the written value. -/
theorem lookupA_insertA_self {β : Type} (l : List (Nat × β)) (k : Nat) (v : β) :
    lookupA (insertA l k v) k = some v := by
  induction l with
  | nil => simp [insertA, lookupA]
  | cons kv rest ih =>
    obtain ⟨k', v'⟩ := kv
    by_cases h : k' = k
    · simp [insertA, lookupA, h]
    · simp [insertA, lookupA, h, ih]

end Quiz

namespace TCP

/-- The `disconnected` list collected by the broadcast loop is always empty:
`send_message` catches the only exception its body can raise. -/
theorem broadcast_disconnected_nil (cs : List (Nat × Client)) (p : Payload)
    (ex : Option Nat) : (broadcastEvents cs p ex).2 = [] := by
  induction cs with
  | nil => rfl
  | cons kv rest ih =>
    obtain ⟨cid, cl⟩ := kv
    simp only [broadcastEvents]
    split <;> simp [ih]

/-- Consequently `broadcast_message` never mutates the state: it only emits
the fan-out events. -/
theorem broadcastMessage_eq (s : State) (p : Payload) (ex : Option Nat) :
    broadcastMessage s p ex = (s, (broadcastEvents s.clients p ex).1) := by
  simp only [broadcastMessage]
  rw [show (broadcastEvents s.clients p ex) =
      ((broadcastEvents s.clients p ex).1, (broadcastEvents s.clients p ex).2) from rfl,
    broadcast_disconnected_nil]
  rfl

/-- Every non-excluded client with a working socket receives the broadcast. -/
theorem mem_broadcastEvents {cs : List (Nat × Client)} {cid : Nat} {cl : Client}
    (p : Payload) (ex : Option Nat) (hmem : (cid, cl) ∈ cs)
    (hok : cl.conn.fails = false) (hex : ¬ ex = some cid) :
    Ev.sent cl.conn.id p ∈ (broadcastEvents cs p ex).1 := by
  induction cs with
  | nil => cases hmem
  | cons kv rest ih =>
    obtain ⟨cid', cl'⟩ := kv
    rcases List.mem_cons.mp hmem with heq | htail
    · obtain ⟨h1, h2⟩ := Prod.mk.injEq .. ▸ heq
      subst h1; subst h2
      simp only [broadcastEvents]
      split
      · exact absurd (by assumption) hex
      · simp [sendMessage, sendall, hok]
    · simp only [broadcastEvents]
      split
      · exact ih htail
      · exact List.mem_append_right _ (ih htail)

end TCP

namespace Quiz

/-- On a nonnegative argument, Python `int()` truncation is the floor. -/
theorem pyInt_of_nonneg {q : ℚ} (h : 0 ≤ q) : pyInt q = ⌊q⌋ := if_pos h

/-- One point is always awarded for a correct answer, whatever the elapsed
time: the speed bonus is clamped from below by `max`. -/
theorem one_le_points (z : ℤ) : 1 ≤ max 1 z := le_max_left 1 z

end Quiz

namespace TCP

open Quiz

/-- Characterization of `handle_client_answer` on the accepted path: the
client exists, a game is running, the current round is in range, the client
has not yet answered past this round, and the round start time is set. -/
theorem tcp_answer_accepted (s : State) (cid : Nat) (conn : Conn) (ans : String)
    (now : ℚ) (c : Client) (q : Question) (t0 : ℚ)
    (hc : lookupA s.clients cid = some c)
    (hact : s.active_game = true)
    (hq : s.questions[s.current_question_index]? = some q)
    (hlen : c.answers.length ≤ s.current_question_index)
    (ht : s.question_start_time = some t0) :
    handleClientAnswer s cid conn ans now =
      (let answer := pyStrip (pyUpper ans)
       let tt := now - t0
       let pr : ℤ × Client :=
         if answer = pyStrip q.answer then
           let p : ℤ := max 1 (pyInt ((QUESTION_TIME_LIMIT - tt) / 5) + 1)
           (p, { c with answers := c.answers ++ [answer], answer_times := c.answer_times ++ [tt], score := c.score + p })
         else
           (0, { c with answers := c.answers ++ [answer], answer_times := c.answer_times ++ [tt] })
       ({ s with clients := insertA s.clients cid pr.2 },
        sendMessage conn (Payload.answer_result (decide (answer = pyStrip q.answer))
          (pyStrip q.answer) pr.1 pr.2.score tt))) := by
  have hidx : s.current_question_index < s.questions.length :=
    (List.getElem?_eq_some.mp hq).1
  simp only [handleClientAnswer, hc, hq, ht, hact, not_true, false_or]
  rw [if_neg (Nat.not_le.mpr hidx), if_neg (Nat.not_lt.mpr hlen)]

end TCP

namespace UDP

open Quiz

/-- Characterization of the UDP `handle_client_answer` on the accepted path. -/
theorem udp_answer_accepted (s : State) (a : Addr) (ans : String)
    (now : ℚ) (c : Client) (q : Question) (t0 : ℚ)
    (hc : lookupC s.clients a = some c)
    (hact : s.active_game = true)
    (hq : s.questions[s.current_question_index]? = some q)
    (hlen : c.answers.length ≤ s.current_question_index)
    (ht : s.question_start_time = some t0) :
    handleClientAnswer s a ans now =
      (let answer := pyStrip (pyUpper ans)
       let tt := now - t0
       let pr : ℤ × Client :=
         if answer = pyStrip q.answer then
           let p : ℤ := max 1 (pyInt ((QUESTION_TIME_LIMIT - tt) / 5) + 1)
           (p, { c with answers := c.answers ++ [answer], answer_times := c.answer_times ++ [tt], score := c.score + p })
         else
           (0, { c with answers := c.answers ++ [answer], answer_times := c.answer_times ++ [tt] })
       ({ s with clients := insertC s.clients a pr.2, seq := s.seq + 1 },
        [{ addr := a,
           payload := Payload.answer_result (decide (answer = pyStrip q.answer))
             (pyStrip q.answer) pr.1 pr.2.score tt,
           seq := s.seq + 1 }])) := by
  have hidx : s.current_question_index < s.questions.length :=
    (List.getElem?_eq_some.mp hq).1
  simp only [handleClientAnswer, hc, hq, ht, hact, not_true, false_or]
  rw [if_neg (Nat.not_le.mpr hidx), if_neg (Nat.not_lt.mpr hlen)]
  rfl

/-- Looking up the address just written returns the written record. -/
theorem lookupC_insertC_self (l : List (Addr × Client)) (k : Addr) (v : Client) :
    lookupC (insertC l k v) k = some v := by
  induction l with
  | nil => simp [insertC, lookupC]
  | cons kv rest ih =>
    obtain ⟨k', v'⟩ := kv
    by_cases h : k' = k
    · simp [insertC, lookupC, h]
    · simp [insertC, lookupC, h, ih]

end UDP

namespace TCP

open Quiz

/-- Evaluation of the first round-1 submission in the duplicate-answer run. -/
theorem c1_first_submission_eval :
    c1One = { c1Mid with clients := insertA c1Mid.clients 0 c1AfterOne } := by
  have hc : lookupA c1Mid.clients 0 = some (mkClient 0 "Alice") := by decide
  have hact : c1Mid.active_game = true := by decide
  have hq : c1Mid.questions[c1Mid.current_question_index]? = some qB := by decide
  have hlen : (mkClient 0 "Alice").answers.length ≤ c1Mid.current_question_index := by decide
  have ht : c1Mid.question_start_time = some 100 := by decide
  have hstr : pyStrip (pyUpper "B") = "B" := by decide
  have hstr2 : pyStrip qB.answer = "B" := by decide
  have harith : max 1 (pyInt ((QUESTION_TIME_LIMIT - 1) / 5) + 1) = 2 := by
    norm_num [pyInt, QUESTION_TIME_LIMIT]
  rw [c1One, tcp_answer_accepted c1Mid 0 (okConn 0) "B" 101 (mkClient 0 "Alice") qB 100
    hc hact hq hlen ht]
  norm_num [hstr, hstr2, harith, mkClient, c1AfterOne]

/-- Evaluation of the second submission for the very same round: it is
accepted and scored again. -/
theorem c1_second_submission_eval :
    c1Two = { c1Mid with clients := insertA c1Mid.clients 0 c1AfterTwo } := by
  have hc : lookupA c1One.clients 0 = some c1AfterOne := by
    rw [c1_first_submission_eval]
    exact lookupA_insertA_self c1Mid.clients 0 c1AfterOne
  have hact : c1One.active_game = true := by rw [c1_first_submission_eval]; decide
  have hq : c1One.questions[c1One.current_question_index]? = some qB := by
    rw [c1_first_submission_eval]; decide
  have hlen : c1AfterOne.answers.length ≤ c1One.current_question_index := by
    rw [c1_first_submission_eval]; decide
  have ht : c1One.question_start_time = some 100 := by
    rw [c1_first_submission_eval]; decide
  have hstr : pyStrip (pyUpper "B") = "B" := by decide
  have hstr2 : pyStrip qB.answer = "B" := by decide
  have harith : max 1 (pyInt ((QUESTION_TIME_LIMIT - 2) / 5) + 1) = 2 := by
    norm_num [pyInt, QUESTION_TIME_LIMIT]
  rw [c1Two, tcp_answer_accepted c1One 0 (okConn 0) "B" 102 c1AfterOne qB 100
    hc hact hq hlen ht]
  rw [c1_first_submission_eval]
  norm_num [hstr, hstr2, harith, c1AfterOne, c1AfterTwo]
  decide

end TCP

/-- C1: the claim states that at most one `submit_answer` per identity per
round is accepted, every further one being a no-op for both the answer record
and the score.  The code's guard `len(answers) > current_question_index`
fails for a player who skipped an earlier round: in the run below, Alice skips
round 0, and in round 1 her first submission is recorded (`["B"]`, score 2)
and her second submission *for the same round* is recorded again
(`["B", "B"]`) with the score raised again to 4 — contradicting both the
claim and the source's own `already answered` comment on that guard. -/
theorem c1_duplicate_submission_scored_twice :
    (Quiz.lookupA TCP.c1One.clients 0).map (fun c => (c.answers, c.score)) =
      some (["B"], (2 : ℤ)) ∧
    (Quiz.lookupA TCP.c1Two.clients 0).map (fun c => (c.answers, c.score)) =
      some (["B", "B"], (4 : ℤ)) ∧
    TCP.c1Mid.active_game = true ∧ TCP.c1Mid.current_question_index = 1 ∧
    TCP.c1One.active_game = true ∧ TCP.c1One.current_question_index = 1 := by
  refine ⟨?_, ?_, by decide, by decide, ?_, ?_⟩
  · rw [TCP.c1_first_submission_eval,
      Quiz.lookupA_insertA_self TCP.c1Mid.clients 0 TCP.c1AfterOne]
    decide
  · rw [TCP.c1_second_submission_eval,
      Quiz.lookupA_insertA_self TCP.c1Mid.clients 0 TCP.c1AfterTwo]
    decide
  · rw [TCP.c1_first_submission_eval]; decide
  · rw [TCP.c1_first_submission_eval]; decide

/-- C2 (amended): on the accepted path, a correct answer submitted `e = now −
t0` seconds after round start is awarded `max 1 (pyInt ((time_limit − e)/5) +
1)` points added to the cumulative score — which equals the claimed
`max(1, ⌊(time_limit − e)/5⌋ + 1)` whenever `0 ≤ e ≤ time_limit` — and an
incorrect answer is awarded 0 points and leaves the score unchanged; but the
handler performs no elapsed-time check, so a correct answer with
`e > time_limit` that still reaches the handler while its round is current is
awarded at least 1 point rather than the claimed 0 (see the counterexample).
Both transport variants behave identically. -/
theorem c2_scoring_rule :
    (∀ (s : TCP.State) (cid : Nat) (conn : TCP.Conn) (ans : String) (now : ℚ)
       (c : TCP.Client) (q : Quiz.Question) (t0 e : ℚ),
      Quiz.lookupA s.clients cid = some c →
      s.active_game = true →
      s.questions[s.current_question_index]? = some q →
      c.answers.length ≤ s.current_question_index →
      s.question_start_time = some t0 →
      conn.fails = false →
      now - t0 = e →
      ((Quiz.pyStrip (Quiz.pyUpper ans) = Quiz.pyStrip q.answer →
        ∃ c', Quiz.lookupA (TCP.handleClientAnswer s cid conn ans now).1.clients cid = some c' ∧
          c'.score = c.score + max 1 (Quiz.pyInt ((TCP.QUESTION_TIME_LIMIT - e) / 5) + 1) ∧
          1 ≤ max 1 (Quiz.pyInt ((TCP.QUESTION_TIME_LIMIT - e) / 5) + 1) ∧
          (TCP.handleClientAnswer s cid conn ans now).2 =
            [TCP.Ev.sent conn.id (TCP.Payload.answer_result true (Quiz.pyStrip q.answer)
              (max 1 (Quiz.pyInt ((TCP.QUESTION_TIME_LIMIT - e) / 5) + 1)) c'.score e)] ∧
          (0 ≤ e → e ≤ TCP.QUESTION_TIME_LIMIT →
            max 1 (Quiz.pyInt ((TCP.QUESTION_TIME_LIMIT - e) / 5) + 1) =
              max 1 (⌊(TCP.QUESTION_TIME_LIMIT - e) / 5⌋ + 1))) ∧
       (¬ Quiz.pyStrip (Quiz.pyUpper ans) = Quiz.pyStrip q.answer →
        ∃ c', Quiz.lookupA (TCP.handleClientAnswer s cid conn ans now).1.clients cid = some c' ∧
          c'.score = c.score ∧
          (TCP.handleClientAnswer s cid conn ans now).2 =
            [TCP.Ev.sent conn.id (TCP.Payload.answer_result false (Quiz.pyStrip q.answer)
              0 c.score e)]))) ∧
    (∀ (s : UDP.State) (a : UDP.Addr) (ans : String) (now : ℚ)
       (c : UDP.Client) (q : Quiz.Question) (t0 e : ℚ),
      UDP.lookupC s.clients a = some c →
      s.active_game = true →
      s.questions[s.current_question_index]? = some q →
      c.answers.length ≤ s.current_question_index →
      s.question_start_time = some t0 →
      now - t0 = e →
      ((Quiz.pyStrip (Quiz.pyUpper ans) = Quiz.pyStrip q.answer →
        ∃ c', UDP.lookupC (UDP.handleClientAnswer s a ans now).1.clients a = some c' ∧
          c'.score = c.score + max 1 (Quiz.pyInt ((UDP.QUESTION_TIME_LIMIT - e) / 5) + 1) ∧
          1 ≤ max 1 (Quiz.pyInt ((UDP.QUESTION_TIME_LIMIT - e) / 5) + 1) ∧
          (UDP.handleClientAnswer s a ans now).2 =
            [{ addr := a, payload := UDP.Payload.answer_result true (Quiz.pyStrip q.answer)
                (max 1 (Quiz.pyInt ((UDP.QUESTION_TIME_LIMIT - e) / 5) + 1)) c'.score e,
               seq := s.seq + 1 }] ∧
          (0 ≤ e → e ≤ UDP.QUESTION_TIME_LIMIT →
            max 1 (Quiz.pyInt ((UDP.QUESTION_TIME_LIMIT - e) / 5) + 1) =
              max 1 (⌊(UDP.QUESTION_TIME_LIMIT - e) / 5⌋ + 1))) ∧
       (¬ Quiz.pyStrip (Quiz.pyUpper ans) = Quiz.pyStrip q.answer →
        ∃ c', UDP.lookupC (UDP.handleClientAnswer s a ans now).1.clients a = some c' ∧
          c'.score = c.score ∧
          (UDP.handleClientAnswer s a ans now).2 =
            [{ addr := a, payload := UDP.Payload.answer_result false (Quiz.pyStrip q.answer)
                0 c.score e, seq := s.seq + 1 }]))) := by
  constructor
  · intro s cid conn ans now c q t0 e hc hact hq hlen ht hok he
    have hmain := TCP.tcp_answer_accepted s cid conn ans now c q t0 hc hact hq hlen ht
    rw [he] at hmain
    constructor
    · intro hcorr
      refine ⟨{ c with answers := c.answers ++ [Quiz.pyStrip (Quiz.pyUpper ans)], answer_times := c.answer_times ++ [e], score := c.score + max 1 (Quiz.pyInt ((TCP.QUESTION_TIME_LIMIT - e) / 5) + 1) }, ?_, rfl, Quiz.one_le_points _, ?_, ?_⟩
      · rw [hmain]
        simp [hcorr, Quiz.lookupA_insertA_self]
      · rw [hmain]
        simp [hcorr, TCP.sendMessage, TCP.sendall, hok]
      · intro h0 hlim
        rw [Quiz.pyInt_of_nonneg (div_nonneg (by linarith) (by norm_num))]
    · intro hwrong
      refine ⟨{ c with answers := c.answers ++ [Quiz.pyStrip (Quiz.pyUpper ans)], answer_times := c.answer_times ++ [e] }, ?_, rfl, ?_⟩
      · rw [hmain]
        simp [hwrong, Quiz.lookupA_insertA_self]
      · rw [hmain]
        simp [hwrong, TCP.sendMessage, TCP.sendall, hok]
  · intro s a ans now c q t0 e hc hact hq hlen ht he
    have hmain := UDP.udp_answer_accepted s a ans now c q t0 hc hact hq hlen ht
    rw [he] at hmain
    constructor
    · intro hcorr
      refine ⟨{ c with answers := c.answers ++ [Quiz.pyStrip (Quiz.pyUpper ans)], answer_times := c.answer_times ++ [e], score := c.score + max 1 (Quiz.pyInt ((UDP.QUESTION_TIME_LIMIT - e) / 5) + 1) }, ?_, rfl, Quiz.one_le_points _, ?_, ?_⟩
      · rw [hmain]
        simp [hcorr, UDP.lookupC_insertC_self]
      · rw [hmain]
        simp [hcorr]
      · intro h0 hlim
        rw [Quiz.pyInt_of_nonneg (div_nonneg (by linarith) (by norm_num))]
    · intro hwrong
      refine ⟨{ c with answers := c.answers ++ [Quiz.pyStrip (Quiz.pyUpper ans)], answer_times := c.answer_times ++ [e] }, ?_, rfl, ?_⟩
      · rw [hmain]
        simp [hwrong, UDP.lookupC_insertC_self]
      · rw [hmain]
        simp [hwrong]

/-- C2 counterexample: in `c2Mid`, round 0 started at time 0 with a 10-second
limit; a correct answer arriving at time 11 — elapsed 11 > time_limit, with
the round still current because the game loop advances the index only at the
next round — is awarded 1 point and raises the score from 0 to 1, where the
claim requires 0 points and an unchanged score. -/
theorem c2_late_correct_answer_scores :
    TCP.QUESTION_TIME_LIMIT < 11 ∧
    TCP.c2Mid.active_game = true ∧
    TCP.c2Mid.question_start_time = some 0 ∧
    TCP.c2Late.2 = [TCP.Ev.sent 0 (TCP.Payload.answer_result true "A" 1 1 11)] ∧
    (Quiz.lookupA TCP.c2Late.1.clients 0).map TCP.Client.score = some 1 ∧
    (Quiz.lookupA TCP.c2Mid.clients 0).map TCP.Client.score = some 0 := by
  have hc : Quiz.lookupA TCP.c2Mid.clients 0 = some (TCP.mkClient 0 "Alice") := by decide
  have hact : TCP.c2Mid.active_game = true := by decide
  have hq : TCP.c2Mid.questions[TCP.c2Mid.current_question_index]? = some Quiz.qA := by decide
  have hlen : (TCP.mkClient 0 "Alice").answers.length ≤ TCP.c2Mid.current_question_index := by
    decide
  have ht : TCP.c2Mid.question_start_time = some 0 := by decide
  have hmain := TCP.tcp_answer_accepted TCP.c2Mid 0 (TCP.okConn 0) "A" 11
    (TCP.mkClient 0 "Alice") Quiz.qA 0 hc hact hq hlen ht
  have hstr : Quiz.pyStrip (Quiz.pyUpper "A") = "A" := by decide
  have hstr2 : Quiz.pyStrip Quiz.qA.answer = "A" := by decide
  have harith : max 1 (Quiz.pyInt ((TCP.QUESTION_TIME_LIMIT - 11) / 5) + 1) = 1 := by
    norm_num [Quiz.pyInt, TCP.QUESTION_TIME_LIMIT]
    exact Int.ceil_le.mpr (by norm_num)
  refine ⟨by norm_num [TCP.QUESTION_TIME_LIMIT], hact, ht, ?_, ?_, by decide⟩
  · rw [show TCP.c2Late = TCP.handleClientAnswer TCP.c2Mid 0 (TCP.okConn 0) "A" 11 from rfl,
      hmain]
    norm_num [hstr, hstr2, harith, TCP.mkClient, TCP.sendMessage, TCP.sendall, TCP.okConn]
  · rw [show TCP.c2Late = TCP.handleClientAnswer TCP.c2Mid 0 (TCP.okConn 0) "A" 11 from rfl,
      hmain]
    norm_num [hstr, hstr2, harith, TCP.mkClient, Quiz.lookupA_insertA_self]

/-- Witness instantiating `c2_scoring_rule` at concrete mid-round states of
both variants: lowercase letter a submitted 2 seconds into round 0. -/
theorem c2_scoring_rule_witness :
    (∃ c', Quiz.lookupA (TCP.handleClientAnswer TCP.wMid 0 (TCP.okConn 0) "a" 2).1.clients 0 =
        some c' ∧
      c'.score = (TCP.mkClient 0 "Alice").score +
        max 1 (Quiz.pyInt ((TCP.QUESTION_TIME_LIMIT - 2) / 5) + 1) ∧
      1 ≤ max 1 (Quiz.pyInt ((TCP.QUESTION_TIME_LIMIT - 2) / 5) + 1) ∧
      (TCP.handleClientAnswer TCP.wMid 0 (TCP.okConn 0) "a" 2).2 =
        [TCP.Ev.sent (TCP.okConn 0).id (TCP.Payload.answer_result true
          (Quiz.pyStrip Quiz.qA.answer)
          (max 1 (Quiz.pyInt ((TCP.QUESTION_TIME_LIMIT - 2) / 5) + 1)) c'.score 2)] ∧
      (0 ≤ (2:ℚ) → (2:ℚ) ≤ TCP.QUESTION_TIME_LIMIT →
        max 1 (Quiz.pyInt ((TCP.QUESTION_TIME_LIMIT - 2) / 5) + 1) =
          max 1 (⌊(TCP.QUESTION_TIME_LIMIT - 2) / 5⌋ + 1))) ∧
    (∃ c', UDP.lookupC (UDP.handleClientAnswer UDP.wUdpMid UDP.ad1 "a" 2).1.clients UDP.ad1 =
        some c' ∧
      c'.score = (UDP.mkClient "Ann").score +
        max 1 (Quiz.pyInt ((UDP.QUESTION_TIME_LIMIT - 2) / 5) + 1) ∧
      1 ≤ max 1 (Quiz.pyInt ((UDP.QUESTION_TIME_LIMIT - 2) / 5) + 1) ∧
      (UDP.handleClientAnswer UDP.wUdpMid UDP.ad1 "a" 2).2 =
        [{ addr := UDP.ad1, payload := UDP.Payload.answer_result true
            (Quiz.pyStrip Quiz.qA.answer)
            (max 1 (Quiz.pyInt ((UDP.QUESTION_TIME_LIMIT - 2) / 5) + 1)) c'.score 2,
           seq := UDP.wUdpMid.seq + 1 }] ∧
      (0 ≤ (2:ℚ) → (2:ℚ) ≤ UDP.QUESTION_TIME_LIMIT →
        max 1 (Quiz.pyInt ((UDP.QUESTION_TIME_LIMIT - 2) / 5) + 1) =
          max 1 (⌊(UDP.QUESTION_TIME_LIMIT - 2) / 5⌋ + 1))) :=
  ⟨(c2_scoring_rule.1 TCP.wMid 0 (TCP.okConn 0) "a" 2 (TCP.mkClient 0 "Alice") Quiz.qA 0 2
      (by decide) (by decide) (by decide) (by decide) (by decide) rfl (by simp)).1 (by decide),
   (c2_scoring_rule.2 UDP.wUdpMid UDP.ad1 "a" 2 (UDP.mkClient "Ann") Quiz.qA 0 2
      (by decide) (by decide) (by decide) (by decide) (by decide) (by simp)).1 (by decide)⟩

namespace Quiz

/-- For each protocol letter, both the lowercase form and the space-padded
form normalize back to the letter under `upper` + `strip`. -/
theorem normalize_letter (L : String) (hL : L ∈ ["A", "B", "C", "D"]) :
    pyStrip (pyUpper (pyLower L)) = L ∧ pyStrip (pyUpper (" " ++ L ++ " ")) = L := by
  simp only [List.mem_cons, List.not_mem_nil, or_false] at hL
  rcases hL with h | h | h | h <;> subst h <;> exact ⟨by decide, by decide⟩

end Quiz

/-- C10: `submit_answer` uppercases and strips the submitted letter before
comparing it with the stripped stored answer, so when the round's correct
letter is one of A–D, a lowercase or whitespace-padded submission of it is
scored as correct (the result message carries `correct = true` and the score
strictly increases), in both transport variants. -/
theorem c10_answer_normalization :
    (∀ (s : TCP.State) (cid : Nat) (conn : TCP.Conn) (sub : String) (now : ℚ)
       (c : TCP.Client) (q : Quiz.Question) (t0 : ℚ) (L : String),
      Quiz.lookupA s.clients cid = some c →
      s.active_game = true →
      s.questions[s.current_question_index]? = some q →
      c.answers.length ≤ s.current_question_index →
      s.question_start_time = some t0 →
      conn.fails = false →
      Quiz.pyStrip q.answer = L →
      L ∈ ["A", "B", "C", "D"] →
      (sub = Quiz.pyLower L ∨ sub = " " ++ L ++ " ") →
      ∃ c', Quiz.lookupA (TCP.handleClientAnswer s cid conn sub now).1.clients cid = some c' ∧
        c'.score = c.score + max 1 (Quiz.pyInt ((TCP.QUESTION_TIME_LIMIT - (now - t0)) / 5) + 1) ∧
        c.score < c'.score ∧
        (TCP.handleClientAnswer s cid conn sub now).2 =
          [TCP.Ev.sent conn.id (TCP.Payload.answer_result true L
            (max 1 (Quiz.pyInt ((TCP.QUESTION_TIME_LIMIT - (now - t0)) / 5) + 1)) c'.score
            (now - t0))]) ∧
    (∀ (s : UDP.State) (a : UDP.Addr) (sub : String) (now : ℚ)
       (c : UDP.Client) (q : Quiz.Question) (t0 : ℚ) (L : String),
      UDP.lookupC s.clients a = some c →
      s.active_game = true →
      s.questions[s.current_question_index]? = some q →
      c.answers.length ≤ s.current_question_index →
      s.question_start_time = some t0 →
      Quiz.pyStrip q.answer = L →
      L ∈ ["A", "B", "C", "D"] →
      (sub = Quiz.pyLower L ∨ sub = " " ++ L ++ " ") →
      ∃ c', UDP.lookupC (UDP.handleClientAnswer s a sub now).1.clients a = some c' ∧
        c'.score = c.score + max 1 (Quiz.pyInt ((UDP.QUESTION_TIME_LIMIT - (now - t0)) / 5) + 1) ∧
        c.score < c'.score ∧
        (UDP.handleClientAnswer s a sub now).2 =
          [{ addr := a, payload := UDP.Payload.answer_result true L
              (max 1 (Quiz.pyInt ((UDP.QUESTION_TIME_LIMIT - (now - t0)) / 5) + 1)) c'.score
              (now - t0), seq := s.seq + 1 }]) := by
  have hscore : ∀ (z base : ℤ), base < base + max 1 z := by
    intro z base
    have := Quiz.one_le_points z
    omega
  constructor
  · intro s cid conn sub now c q t0 L hc hact hq hlen ht hok hLq hL hsub
    have hcorr : Quiz.pyStrip (Quiz.pyUpper sub) = Quiz.pyStrip q.answer := by
      rcases hsub with h | h <;> rw [h, hLq]
      · exact (Quiz.normalize_letter L hL).1
      · exact (Quiz.normalize_letter L hL).2
    have hmain := TCP.tcp_answer_accepted s cid conn sub now c q t0 hc hact hq hlen ht
    refine ⟨{ c with answers := c.answers ++ [Quiz.pyStrip (Quiz.pyUpper sub)], answer_times := c.answer_times ++ [now - t0], score := c.score + max 1 (Quiz.pyInt ((TCP.QUESTION_TIME_LIMIT - (now - t0)) / 5) + 1) }, ?_, rfl, hscore _ _, ?_⟩
    · rw [hmain]
      simp [hcorr, Quiz.lookupA_insertA_self]
    · rw [hmain]
      simp [hcorr, hLq, TCP.sendMessage, TCP.sendall, hok]
  · intro s a sub now c q t0 L hc hact hq hlen ht hLq hL hsub
    have hcorr : Quiz.pyStrip (Quiz.pyUpper sub) = Quiz.pyStrip q.answer := by
      rcases hsub with h | h <;> rw [h, hLq]
      · exact (Quiz.normalize_letter L hL).1
      · exact (Quiz.normalize_letter L hL).2
    have hmain := UDP.udp_answer_accepted s a sub now c q t0 hc hact hq hlen ht
    refine ⟨{ c with answers := c.answers ++ [Quiz.pyStrip (Quiz.pyUpper sub)], answer_times := c.answer_times ++ [now - t0], score := c.score + max 1 (Quiz.pyInt ((UDP.QUESTION_TIME_LIMIT - (now - t0)) / 5) + 1) }, ?_, rfl, hscore _ _, ?_⟩
    · rw [hmain]
      simp [hcorr, UDP.lookupC_insertC_self]
    · rw [hmain]
      simp [hcorr, hLq]

/-- Witness instantiating `c10_answer_normalization` in both variants: the
stored letter A of `qA` submitted as lowercase a 2 seconds into round 0. -/
theorem c10_answer_normalization_witness :
    (∃ c', Quiz.lookupA (TCP.handleClientAnswer TCP.wMid 0 (TCP.okConn 0) "a" 2).1.clients 0 =
        some c' ∧
      c'.score = (TCP.mkClient 0 "Alice").score +
        max 1 (Quiz.pyInt ((TCP.QUESTION_TIME_LIMIT - (2 - 0)) / 5) + 1) ∧
      (TCP.mkClient 0 "Alice").score < c'.score ∧
      (TCP.handleClientAnswer TCP.wMid 0 (TCP.okConn 0) "a" 2).2 =
        [TCP.Ev.sent (TCP.okConn 0).id (TCP.Payload.answer_result true "A"
          (max 1 (Quiz.pyInt ((TCP.QUESTION_TIME_LIMIT - (2 - 0)) / 5) + 1)) c'.score (2 - 0))]) ∧
    (∃ c', UDP.lookupC (UDP.handleClientAnswer UDP.wUdpMid UDP.ad1 "a" 2).1.clients UDP.ad1 =
        some c' ∧
      c'.score = (UDP.mkClient "Ann").score +
        max 1 (Quiz.pyInt ((UDP.QUESTION_TIME_LIMIT - (2 - 0)) / 5) + 1) ∧
      (UDP.mkClient "Ann").score < c'.score ∧
      (UDP.handleClientAnswer UDP.wUdpMid UDP.ad1 "a" 2).2 =
        [{ addr := UDP.ad1, payload := UDP.Payload.answer_result true "A"
            (max 1 (Quiz.pyInt ((UDP.QUESTION_TIME_LIMIT - (2 - 0)) / 5) + 1)) c'.score (2 - 0),
           seq := UDP.wUdpMid.seq + 1 }]) :=
  ⟨c10_answer_normalization.1 TCP.wMid 0 (TCP.okConn 0) "a" 2 (TCP.mkClient 0 "Alice")
      Quiz.qA 0 "A" (by decide) (by decide) (by decide) (by decide) (by decide) rfl
      (by decide) (by decide) (Or.inl (by decide)),
   c10_answer_normalization.2 UDP.wUdpMid UDP.ad1 "a" 2 (UDP.mkClient "Ann")
      Quiz.qA 0 "A" (by decide) (by decide) (by decide) (by decide) (by decide)
      (by decide) (by decide) (Or.inl (by decide))⟩

/-- C3: the claim states that a failed broadcast write removes the failing
client from the registry.  In the code, `send_message` wraps its only
fallible operation (`sendall`) in a blanket `try/except` that only prints, so
`broadcast_message`'s `disconnected` collection — whose very purpose, per its
`Remove disconnected clients` comment, is that removal — can never fire.  In
the concrete registry below, client 1's socket fails during a broadcast: the
send error is merely logged, client 1 stays registered, and the send to
client 0 completes.  The second half of the claim (one failure never aborts
the rest of the batch) does hold. -/
theorem c3_failed_write_not_removed :
    TCP.broadcastMessage TCP.c3State (TCP.Payload.game_start "Game starting!" 1) none =
      (TCP.c3State,
        [TCP.Ev.sent 0 (TCP.Payload.game_start "Game starting!" 1), TCP.Ev.sendErr 1]) ∧
    (Quiz.lookupA TCP.c3State.clients 1).isSome = true ∧
    (Quiz.lookupA
      (TCP.broadcastMessage TCP.c3State (TCP.Payload.game_start "Game starting!" 1) none).1.clients
      1).isSome = true := by
  refine ⟨?_, by decide, ?_⟩ <;> rw [TCP.broadcastMessage_eq] <;> decide

namespace TCP

open Quiz

/-- The head of `sorted(keys)` is a key and is the minimum of the keys. -/
theorem sortedKeys_headI_min (cs : List (Nat × Client)) (hne : cs ≠ []) :
    (sortedKeys cs).headI ∈ keysA cs ∧ ∀ k ∈ keysA cs, (sortedKeys cs).headI ≤ k := by
  haveI : IsTotal ℕ (fun a b : ℕ => a ≤ b) := ⟨le_total⟩
  haveI : IsTrans ℕ (fun a b : ℕ => a ≤ b) := ⟨fun _ _ _ => le_trans⟩
  have hperm := List.perm_insertionSort (fun a b : ℕ => a ≤ b) (keysA cs)
  have hsort := List.sorted_insertionSort (fun a b : ℕ => a ≤ b) (keysA cs)
  have hkeysne : keysA cs ≠ [] := by
    cases cs with
    | nil => exact absurd rfl hne
    | cons kv rest => simp [keysA]
  have hlne : sortedKeys cs ≠ [] := by
    intro h
    exact hkeysne (List.Perm.symm (h ▸ hperm : ([] : List ℕ).Perm (keysA cs))).eq_nil
  obtain ⟨x, xs, hl⟩ := List.exists_cons_of_ne_nil hlne
  rw [sortedKeys] at hl
  constructor
  · rw [sortedKeys, hl]
    exact (hperm.mem_iff.mp (by rw [hl]; exact List.mem_cons_self x xs))
  · intro k hk
    have hk' : k ∈ x :: xs := by
      rw [← hl]
      exact hperm.symm.mem_iff.mp hk
    rw [sortedKeys, hl]
    rcases List.mem_cons.mp hk' with h | h
    · exact le_of_eq (h ▸ rfl)
    · have := (List.sorted_cons.mp (hl ▸ hsort)).1
      exact this k h

end TCP

/-- C4: removing the current host re-elects as host the lowest-valued
remaining client id and sends a `host_update` to every remaining client
(with a working socket); removing the last client clears the host. -/
theorem c4_host_reelection :
    ∀ (s : TCP.State) (h : Nat) (cl : TCP.Client),
      Quiz.lookupA s.clients h = some cl →
      s.host_conn_id = some h →
      ((Quiz.eraseA s.clients h = [] →
        (TCP.removeClient s h).1.host_conn_id = none ∧
        (TCP.removeClient s h).1.clients = []) ∧
       (∀ k0 cl0, (k0, cl0) ∈ Quiz.eraseA s.clients h →
        ∃ m, (TCP.removeClient s h).1.host_conn_id = some m ∧
          m ∈ Quiz.keysA (Quiz.eraseA s.clients h) ∧
          (∀ k ∈ Quiz.keysA (Quiz.eraseA s.clients h), m ≤ k) ∧
          (∀ cid cl', (cid, cl') ∈ Quiz.eraseA s.clients h → cl'.conn.fails = false →
            TCP.Ev.sent cl'.conn.id
              (TCP.Payload.host_update
                ((Quiz.lookupA (Quiz.eraseA s.clients h) m).bind TCP.Client.name))
              ∈ (TCP.removeClient s h).2))) := by
  intro s h cl hc hhost
  constructor
  · intro hnil
    simp [TCP.removeClient, hc, hhost, hnil]
  · intro k0 cl0 hmem
    rcases hh : Quiz.eraseA s.clients h with _ | ⟨⟨k1, c1⟩, rest⟩
    · rw [hh] at hmem
      cases hmem
    · refine ⟨(TCP.sortedKeys ((k1, c1) :: rest)).headI, ?_, ?_, ?_, ?_⟩
      · simp only [TCP.removeClient, hc, if_pos hhost, hh]
      · exact (TCP.sortedKeys_headI_min _ (by simp)).1
      · exact (TCP.sortedKeys_headI_min _ (by simp)).2
      · intro cid cl' hmem' hok
        simp only [TCP.removeClient, hc, if_pos hhost, hh]
        exact TCP.mem_broadcastEvents _ none hmem' hok (by simp)

/-- Witness instantiating `c4_host_reelection`: host 0 removed from a registry
holding ids 0, 2 and 1; the new host is the minimum remaining id. -/
theorem c4_host_reelection_witness :
    ∃ m, (TCP.removeClient TCP.c4State 0).1.host_conn_id = some m ∧
      m ∈ Quiz.keysA (Quiz.eraseA TCP.c4State.clients 0) ∧
      (∀ k ∈ Quiz.keysA (Quiz.eraseA TCP.c4State.clients 0), m ≤ k) ∧
      (∀ cid cl', (cid, cl') ∈ Quiz.eraseA TCP.c4State.clients 0 → cl'.conn.fails = false →
        TCP.Ev.sent cl'.conn.id (TCP.Payload.host_update
          ((Quiz.lookupA (Quiz.eraseA TCP.c4State.clients 0) m).bind TCP.Client.name))
          ∈ (TCP.removeClient TCP.c4State 0).2) :=
  (c4_host_reelection TCP.c4State 0 (TCP.mkClient 0 "Ann") (by decide) (by decide)).2
    2 (TCP.mkClient 2 "Cid") (by decide)

namespace UDP

/-- Sending datagrams only advances the sequence counter: every other state
field is untouched by `sendToAll`. -/
theorem sendToAll_fields (s : State) (addrs : List Addr) (p : Payload) :
    (sendToAll s addrs p).1.active_game = s.active_game ∧
    (sendToAll s addrs p).1.clients = s.clients ∧
    (sendToAll s addrs p).1.current_question_index = s.current_question_index ∧
    (sendToAll s addrs p).1.question_start_time = s.question_start_time ∧
    (sendToAll s addrs p).1.questions = s.questions := by
  induction addrs generalizing s with
  | nil => exact ⟨rfl, rfl, rfl, rfl, rfl⟩
  | cons a rest ih =>
    simpa [sendToAll, sendMessage, nextSeq] using ih { s with seq := s.seq + 1 }

/-- `broadcast_message` likewise only advances the sequence counter. -/
theorem broadcastMessage_fields (s : State) (p : Payload) (ex : Option Addr) :
    (broadcastMessage s p ex).1.active_game = s.active_game ∧
    (broadcastMessage s p ex).1.clients = s.clients ∧
    (broadcastMessage s p ex).1.current_question_index = s.current_question_index ∧
    (broadcastMessage s p ex).1.question_start_time = s.question_start_time ∧
    (broadcastMessage s p ex).1.questions = s.questions :=
  sendToAll_fields s _ p

end UDP

/-- C5 (amended): the `game_end` leaderboard is sorted by score descending and
is a permutation of (exactly one entry per entry of) the registry *as it is
when the game ends* — not of the set of players that ever registered during
the game: a client removed mid-game is absent (see the counterexample), and
every client still present, registered or not, appears. -/
theorem c5_final_leaderboard (s : TCP.State) (u : UDP.State) :
    List.Sorted (fun a b : TCP.LBEntry => b.score ≤ a.score) (TCP.finalLeaderboard s) ∧
    (TCP.finalLeaderboard s).Perm (TCP.lbEntries s.clients) ∧
    (∀ cid cl, (cid, cl) ∈ s.clients → cl.conn.fails = false →
      TCP.Ev.sent cl.conn.id (TCP.Payload.game_end (TCP.finalLeaderboard s) "Game finished!")
        ∈ (TCP.endGame s).2) ∧
    (TCP.endGame s).1.active_game = false ∧
    List.Sorted (fun a b : UDP.LBEntry => b.score ≤ a.score) (UDP.finalLeaderboard u) ∧
    (UDP.finalLeaderboard u).Perm (u.clients.map (fun kv =>
      { name := kv.2.name, score := kv.2.score,
        address := kv.1.host ++ ":" ++ toString kv.1.port })) ∧
    (UDP.endGame u).1.active_game = false := by
  haveI ht1 : IsTotal TCP.LBEntry (fun a b : TCP.LBEntry => b.score ≤ a.score) :=
    ⟨fun a b => le_total b.score a.score⟩
  haveI ht2 : IsTrans TCP.LBEntry (fun a b : TCP.LBEntry => b.score ≤ a.score) :=
    ⟨fun _ _ _ hab hbc => le_trans hbc hab⟩
  haveI hu1 : IsTotal UDP.LBEntry (fun a b : UDP.LBEntry => b.score ≤ a.score) :=
    ⟨fun a b => le_total b.score a.score⟩
  haveI hu2 : IsTrans UDP.LBEntry (fun a b : UDP.LBEntry => b.score ≤ a.score) :=
    ⟨fun _ _ _ hab hbc => le_trans hbc hab⟩
  refine ⟨List.sorted_insertionSort _ _, List.perm_insertionSort _ _, ?_, ?_,
    List.sorted_insertionSort _ _, List.perm_insertionSort _ _, ?_⟩
  · intro cid cl hmem hok
    show TCP.Ev.sent cl.conn.id _ ∈ (TCP.endGame s).2
    simp only [TCP.endGame, TCP.broadcastMessage_eq]
    exact TCP.mem_broadcastEvents _ none hmem hok (by simp)
  · simp only [TCP.endGame, TCP.broadcastMessage_eq]
  · show ({ (UDP.broadcastMessage _ _ none).1 with current_question_index := 0 } : UDP.State).active_game = false
    simp only [UDP.broadcastMessage]
    exact (UDP.sendToAll_fields _ _ _).1

/-- Witness instantiating `c5_final_leaderboard` at a concrete three-client
registry, with the `game_end` delivery fact instantiated at client 1. -/
theorem c5_final_leaderboard_witness :
    List.Sorted (fun a b : TCP.LBEntry => b.score ≤ a.score)
      (TCP.finalLeaderboard TCP.c4State) ∧
    TCP.Ev.sent (TCP.mkClient 1 "Ben").conn.id
      (TCP.Payload.game_end (TCP.finalLeaderboard TCP.c4State) "Game finished!")
      ∈ (TCP.endGame TCP.c4State).2 ∧
    (UDP.finalLeaderboard UDP.c6State).Perm (UDP.c6State.clients.map (fun kv =>
      { name := kv.2.name, score := kv.2.score,
        address := kv.1.host ++ ":" ++ toString kv.1.port })) :=
  ⟨(c5_final_leaderboard TCP.c4State UDP.c6State).1,
   (c5_final_leaderboard TCP.c4State UDP.c6State).2.2.1 1 (TCP.mkClient 1 "Ben")
     (by decide) rfl,
   (c5_final_leaderboard TCP.c4State UDP.c6State).2.2.2.2.2.1⟩

/-- C5 counterexample: Alice and Bob both register, the game starts, Bob
disconnects mid-game, the game ends.  Bob registered during this game and is a
"player that ever registered", yet the final `game_end` leaderboard is
`[Alice: 0]` with no entry for Bob — a registered player is missing, refuting
the claim.  The full event trace of the run is listed explicitly. -/
theorem c5_registered_player_missing :
    (Quiz.lookupA TCP.c5Started.clients 1).map TCP.Client.name = some (some "Bob") ∧
    TCP.c5Started.active_game = true ∧
    TCP.c5Out.2 =
      [TCP.Ev.sent 0 (TCP.Payload.registered "Welcome Alice!" 1 true),
       TCP.Ev.sent 1 (TCP.Payload.registered "Welcome Bob!" 2 false),
       TCP.Ev.sent 0 (TCP.Payload.player_joined "Bob" 2),
       TCP.Ev.sent 0 (TCP.Payload.game_start "Game starting!" 1),
       TCP.Ev.sent 1 (TCP.Payload.game_start "Game starting!" 1),
       TCP.Ev.spawnedGameLoop,
       TCP.Ev.sent 0 (TCP.Payload.game_end [{ name := some "Alice", score := 0 }]
         "Game finished!")] ∧
    (∀ e ∈ ([{ name := some "Alice", score := 0 }] : List TCP.LBEntry),
      e.name ≠ some "Bob") := by
  refine ⟨by decide, by decide, by decide, by decide⟩

namespace Quiz

/-- `updateA` does not change the length of the registry. -/
theorem updateA_length {β : Type} (l : List (Nat × β)) (k : Nat) (f : β → β) :
    (updateA l k f).length = l.length := List.length_map l _

/-- Entries at other keys survive an `updateA` unchanged. -/
theorem mem_updateA_ne {β : Type} {l : List (Nat × β)} {k' : Nat} {v : β}
    (k : Nat) (f : β → β) (hmem : (k', v) ∈ l) (hne : ¬ k' = k) :
    (k', v) ∈ updateA l k f := by
  have : (fun kv : Nat × β => if kv.1 = k then (kv.1, f kv.2) else kv) (k', v) = (k', v) := by
    simp [hne]
  exact this ▸ List.mem_map_of_mem _ hmem

end Quiz

/-- C6 (amended): registration is rejected with an error reply and no session
state change while a game is active; on success the registrant receives a
`registered` acknowledgment carrying the current player count.  Only the
connection-oriented variant then broadcasts a `player_joined` notice to every
other registered client; the connectionless variant sends exactly one
datagram, to the registrant, and notifies nobody else. -/
theorem c6_register_rule :
    (∀ (s : TCP.State) (cid : Nat) (conn : TCP.Conn) (nm : String) (c : TCP.Client),
      (s.active_game = true →
        TCP.handleClientRegister s cid conn (some nm) =
          (s, TCP.sendMessage conn (TCP.Payload.errorMsg "Game already in progress"))) ∧
      (s.active_game = false → Quiz.lookupA s.clients cid = some c → conn.fails = false →
        ∃ evs, TCP.handleClientRegister s cid conn (some nm) =
          ({ s with clients := Quiz.updateA s.clients cid (fun c0 => { c0 with name := some nm, score := 0, answers := [], answer_times := [] }) },
           TCP.Ev.sent conn.id (TCP.Payload.registered ("Welcome " ++ nm ++ "!")
             s.clients.length (decide (s.host_conn_id = some cid))) :: evs) ∧
          (∀ cid' cl', (cid', cl') ∈ s.clients → ¬ cid' = cid → cl'.conn.fails = false →
            TCP.Ev.sent cl'.conn.id (TCP.Payload.player_joined nm s.clients.length) ∈ evs))) ∧
    (∀ (s : UDP.State) (a : UDP.Addr) (nm : String),
      (s.active_game = true →
        UDP.handleClientRegister s a (some nm) =
          ({ s with seq := s.seq + 1 },
           [{ addr := a, payload := UDP.Payload.errorMsg "Game already in progress", seq := s.seq + 1 }])) ∧
      (s.active_game = false →
        UDP.handleClientRegister s a (some nm) =
          ({ s with clients := UDP.insertC s.clients a { name := nm, score := 0, answers := [], answer_times := [] }, seq := s.seq + 1 },
           [{ addr := a,
              payload := UDP.Payload.registered ("Welcome " ++ nm ++ "!")
                (UDP.insertC s.clients a { name := nm, score := 0, answers := [], answer_times := [] }).length,
              seq := s.seq + 1 }]))) := by
  constructor
  · intro s cid conn nm c
    constructor
    · intro hact
      simp [TCP.handleClientRegister, hact]
    · intro hact hc hok
      refine ⟨(TCP.broadcastEvents
          (Quiz.updateA s.clients cid (fun c0 => { c0 with name := some nm, score := 0, answers := [], answer_times := [] }))
          (TCP.Payload.player_joined nm s.clients.length) (some cid)).1, ?_, ?_⟩
      · simp only [TCP.handleClientRegister, hact, Bool.false_eq_true, if_false, hc,
          Option.getD_some, TCP.broadcastMessage_eq, Quiz.updateA_length,
          TCP.sendMessage, TCP.sendall, hok]
        rfl
      · intro cid' cl' hmem hne hok'
        exact TCP.mem_broadcastEvents _ (some cid)
          (Quiz.mem_updateA_ne cid _ hmem hne) hok'
          (by simp only [Option.some.injEq]; exact fun h => hne h.symm)
  · intro s a nm
    constructor
    · intro hact
      simp [UDP.handleClientRegister, hact, UDP.sendMessage, UDP.nextSeq]
    · intro hact
      simp [UDP.handleClientRegister, hact, UDP.sendMessage, UDP.nextSeq]

/-- Witness instantiating `c6_register_rule`: the TCP active-game rejection
and successful registration (with the join notice delivered to client 2), and
the UDP rejection and single-datagram acknowledgment. -/
theorem c6_register_rule_witness :
    (TCP.handleClientRegister { TCP.c4State with active_game := true } 0 (TCP.okConn 0)
        (some "Zoe") =
      ({ TCP.c4State with active_game := true },
       TCP.sendMessage (TCP.okConn 0) (TCP.Payload.errorMsg "Game already in progress"))) ∧
    (∃ evs, TCP.handleClientRegister TCP.c4State 0 (TCP.okConn 0) (some "Zoe") =
      ({ TCP.c4State with clients := Quiz.updateA TCP.c4State.clients 0 (fun c0 => { c0 with name := some "Zoe", score := 0, answers := [], answer_times := [] }) },
       TCP.Ev.sent (TCP.okConn 0).id (TCP.Payload.registered ("Welcome " ++ "Zoe" ++ "!")
         TCP.c4State.clients.length (decide (TCP.c4State.host_conn_id = some 0))) :: evs) ∧
      (∀ cid' cl', (cid', cl') ∈ TCP.c4State.clients → ¬ cid' = 0 → cl'.conn.fails = false →
        TCP.Ev.sent cl'.conn.id (TCP.Payload.player_joined "Zoe" TCP.c4State.clients.length)
          ∈ evs)) ∧
    (UDP.handleClientRegister { UDP.c6State with active_game := true } UDP.ad1 (some "Ana") =
      ({ UDP.c6State with active_game := true, seq := UDP.c6State.seq + 1 },
       [{ addr := UDP.ad1, payload := UDP.Payload.errorMsg "Game already in progress",
          seq := UDP.c6State.seq + 1 }])) ∧
    (UDP.handleClientRegister UDP.c6State UDP.ad1 (some "Ana") =
      ({ UDP.c6State with clients := UDP.insertC UDP.c6State.clients UDP.ad1 { name := "Ana", score := 0, answers := [], answer_times := [] }, seq := UDP.c6State.seq + 1 },
       [{ addr := UDP.ad1,
          payload := UDP.Payload.registered ("Welcome " ++ "Ana" ++ "!")
            (UDP.insertC UDP.c6State.clients UDP.ad1 { name := "Ana", score := 0, answers := [], answer_times := [] }).length,
          seq := UDP.c6State.seq + 1 }])) :=
  ⟨((c6_register_rule.1 { TCP.c4State with active_game := true } 0 (TCP.okConn 0) "Zoe"
      (TCP.mkClient 0 "Ann")).1 rfl),
   ((c6_register_rule.1 TCP.c4State 0 (TCP.okConn 0) "Zoe" (TCP.mkClient 0 "Ann")).2
      rfl (by decide) rfl),
   ((c6_register_rule.2 { UDP.c6State with active_game := true } UDP.ad1 "Ana").1 rfl),
   ((c6_register_rule.2 UDP.c6State UDP.ad1 "Ana").2 rfl)⟩

/-- C6 counterexample: in the connectionless variant, a successful
registration from `ad1` while `ad2` is already registered produces exactly one
outbound datagram, addressed to `ad1`: no join notice of any kind reaches the
other registered client, refuting the claim's broadcast clause for this
variant. -/
theorem c6_udp_sends_no_join_notice :
    (UDP.handleClientRegister UDP.c6State UDP.ad1 (some "Ana")).2.map UDP.Sent.addr =
      [UDP.ad1] ∧
    UDP.lookupC (UDP.handleClientRegister UDP.c6State UDP.ad1 (some "Ana")).1.clients UDP.ad1 =
      some { name := "Ana", score := 0, answers := [], answer_times := [] } ∧
    UDP.lookupC UDP.c6State.clients UDP.ad2 = some (UDP.mkClient "Bob") ∧
    UDP.c6State.active_game = false ∧
    (∀ m ∈ (UDP.handleClientRegister UDP.c6State UDP.ad1 (some "Ana")).2,
      m.addr ≠ UDP.ad2) := by
  refine ⟨by decide, by decide, by decide, by decide, by decide⟩

/-- C7 (amended): in the connectionless variant an `answer` from an
unregistered source address is fully ignored — no state change at all and no
reply; a `start_game` from an unregistered address changes no session state
(only the outbound sequence counter advances) but, contrary to the claim, it
does receive a `Not registered` error reply. -/
theorem c7_unregistered_rule :
    (∀ (s : UDP.State) (a : UDP.Addr) (ans : String) (now : ℚ),
      UDP.lookupC s.clients a = none →
      UDP.handleClientAnswer s a ans now = (s, [])) ∧
    (∀ (s : UDP.State) (a : UDP.Addr),
      UDP.lookupC s.clients a = none →
      UDP.handleRequestStartGame s a =
        ({ s with seq := s.seq + 1 },
         [{ addr := a, payload := UDP.Payload.errorMsg "Not registered", seq := s.seq + 1 }])) := by
  constructor
  · intro s a ans now hc
    simp [UDP.handleClientAnswer, hc]
  · intro s a hc
    simp [UDP.handleRequestStartGame, hc, UDP.sendMessage, UDP.nextSeq]

/-- Witness instantiating `c7_unregistered_rule` at the empty registry. -/
theorem c7_unregistered_rule_witness :
    UDP.handleClientAnswer UDP.c7State UDP.ad1 "A" 3 = (UDP.c7State, []) ∧
    UDP.handleRequestStartGame UDP.c7State UDP.ad1 =
      ({ UDP.c7State with seq := UDP.c7State.seq + 1 },
       [{ addr := UDP.ad1, payload := UDP.Payload.errorMsg "Not registered",
          seq := UDP.c7State.seq + 1 }]) :=
  ⟨c7_unregistered_rule.1 UDP.c7State UDP.ad1 "A" 3 rfl,
   c7_unregistered_rule.2 UDP.c7State UDP.ad1 rfl⟩

/-- C7 counterexample: a `start_game` datagram from the unregistered address
`ad1` is answered with a `Not registered` error datagram — the claim says no
reply of any kind is sent. -/
theorem c7_start_from_unregistered_gets_reply :
    UDP.lookupC UDP.c7State.clients UDP.ad1 = none ∧
    (UDP.handleRequestStartGame UDP.c7State UDP.ad1).2 =
      [{ addr := UDP.ad1, payload := UDP.Payload.errorMsg "Not registered", seq := 1 }] ∧
    (UDP.handleRequestStartGame UDP.c7State UDP.ad1).2 ≠ [] := by
  refine ⟨by decide, by decide, by decide⟩

namespace TCP

/-- One atomic section preserves the question bank and the in-range invariant
on the round index (given a non-empty bank). -/
theorem tcp_step_preserves (s : State) (a : Act)
    (hq : 0 < s.questions.length)
    (hI : s.active_game = true → s.current_question_index < s.questions.length) :
    (step s a).1.questions = s.questions ∧
    ((step s a).1.active_game = true →
      (step s a).1.current_question_index < (step s a).1.questions.length) := by
  cases a with
  | connect fails => exact ⟨rfl, hI⟩
  | register cid conn nm =>
    simp only [step, handleClientRegister]
    split
    · exact ⟨rfl, hI⟩
    · split
      · exact ⟨rfl, hI⟩
      · simp only [broadcastMessage_eq]
        exact ⟨trivial, hI⟩
  | answer cid conn ans now =>
    simp only [step, handleClientAnswer]
    split
    · exact ⟨rfl, hI⟩
    · split
      · exact ⟨rfl, hI⟩
      · split
        · exact ⟨rfl, hI⟩
        · split
          · exact ⟨rfl, hI⟩
          · split
            · exact ⟨rfl, hI⟩
            · exact ⟨rfl, hI⟩
  | reqStart cid conn =>
    simp only [step, handleRequestStartGame]
    split
    · exact ⟨rfl, hI⟩
    · split
      · exact ⟨rfl, hI⟩
      · split
        · exact ⟨rfl, hI⟩
        · exact ⟨rfl, hI⟩
  | startGame =>
    simp only [step, startGame]
    split
    · exact ⟨rfl, hI⟩
    · split
      · exact ⟨rfl, hI⟩
      · simp only [broadcastMessage_eq]
        exact ⟨trivial, fun _ => hq⟩
  | beginRound i t =>
    simp only [step, beginRound]
    split
    · next h =>
      split
      · exact ⟨rfl, hI⟩
      · simp only [broadcastMessage_eq]
        exact ⟨trivial, fun _ => h.2⟩
    · exact ⟨rfl, hI⟩
  | endRound i =>
    simp only [step, endRound]
    split
    · split
      · exact ⟨rfl, hI⟩
      · simp only [broadcastMessage_eq]
        exact ⟨trivial, hI⟩
    · exact ⟨rfl, hI⟩
  | endGame =>
    simp only [step, endGame, broadcastMessage_eq]
    exact ⟨trivial, fun h => (Bool.false_ne_true h).elim⟩
  | disconnect cid =>
    simp only [step, removeClient]
    split
    · exact ⟨rfl, hI⟩
    · split
      · split
        · exact ⟨rfl, hI⟩
        · exact ⟨rfl, hI⟩
      · exact ⟨rfl, hI⟩
  | getStatus conn => exact ⟨rfl, hI⟩

/-- The invariant of `tcp_step_preserves` holds along every run. -/
theorem tcp_run_invariant (acts : List Act) (s : State)
    (hq : 0 < s.questions.length)
    (hI : s.active_game = true → s.current_question_index < s.questions.length) :
    0 < (run s acts).1.questions.length ∧
    ((run s acts).1.active_game = true →
      (run s acts).1.current_question_index < (run s acts).1.questions.length) := by
  induction acts generalizing s with
  | nil => exact ⟨hq, hI⟩
  | cons a rest ih =>
    have hstep := tcp_step_preserves s a hq hI
    have hq' : 0 < (step s a).1.questions.length := hstep.1 ▸ hq
    have := ih (step s a).1 hq' hstep.2
    simpa [run] using this

end TCP

namespace UDP

/-- One UDP section preserves the question bank and the in-range invariant on
the round index (given a non-empty bank).  The fields involved are mutated
only inside `with self.game_lock` blocks in the source, so their evolution is
faithfully captured by any serialized order of the sections. -/
theorem udp_step_preserves (s : State) (a : Act)
    (hq : 0 < s.questions.length)
    (hI : s.active_game = true → s.current_question_index < s.questions.length) :
    (step s a).1.questions = s.questions ∧
    ((step s a).1.active_game = true →
      (step s a).1.current_question_index < (step s a).1.questions.length) := by
  cases a with
  | register a nm =>
    simp only [step, handleClientRegister]
    split
    · exact ⟨rfl, hI⟩
    · exact ⟨rfl, hI⟩
  | answer a ans now =>
    simp only [step, handleClientAnswer]
    split
    · exact ⟨rfl, hI⟩
    · split
      · exact ⟨rfl, hI⟩
      · split
        · exact ⟨rfl, hI⟩
        · split
          · exact ⟨rfl, hI⟩
          · split
            · exact ⟨rfl, hI⟩
            · exact ⟨rfl, hI⟩
  | reqStart a =>
    simp only [step, handleRequestStartGame]
    split
    · exact ⟨rfl, hI⟩
    · split
      · exact ⟨rfl, hI⟩
      · exact ⟨rfl, hI⟩
  | getStatus a => exact ⟨rfl, hI⟩
  | unknownType a => exact ⟨rfl, hI⟩
  | badJson a => exact ⟨rfl, hI⟩
  | startGame =>
    simp only [step, startGame]
    split
    · exact ⟨rfl, hI⟩
    · split
      · exact ⟨rfl, hI⟩
      · have h := broadcastMessage_fields { s with active_game := true, current_question_index := 0, clients := s.clients.map (fun kv => (kv.1, { kv.2 with score := 0, answers := [], answer_times := [] })) } (Payload.game_start "Game starting!" s.questions.length) none
        refine ⟨h.2.2.2.2, fun _ => ?_⟩
        rw [h.2.2.1, h.2.2.2.2]
        exact hq
  | beginRound i t =>
    simp only [step, beginRound]
    split
    · next hg =>
      split
      · exact ⟨rfl, hI⟩
      · next q hq' =>
        have h := broadcastMessage_fields { s with current_question_index := i, question_start_time := some t } (Payload.question (i + 1) s.questions.length q.question q.options QUESTION_TIME_LIMIT) none
        refine ⟨h.2.2.2.2, fun _ => ?_⟩
        rw [h.2.2.1, h.2.2.2.2]
        exact hg.2
    · exact ⟨rfl, hI⟩
  | rebroadcast i =>
    simp only [step, rebroadcast]
    split
    · exact ⟨rfl, hI⟩
    · next q hq' =>
      have h := broadcastMessage_fields s (Payload.question (i + 1) s.questions.length q.question q.options QUESTION_TIME_LIMIT) none
      refine ⟨h.2.2.2.2, fun ha => ?_⟩
      rw [h.1] at ha
      rw [h.2.2.1, h.2.2.2.2]
      exact hI ha
  | endRound i =>
    simp only [step, endRound]
    split
    · split
      · exact ⟨rfl, hI⟩
      · next q hq' =>
        have h := broadcastMessage_fields s (Payload.question_end q.answer (i + 1)) none
        refine ⟨h.2.2.2.2, fun ha => ?_⟩
        rw [h.1] at ha
        rw [h.2.2.1, h.2.2.2.2]
        exact hI ha
    · exact ⟨rfl, hI⟩
  | endGame =>
    simp only [step, endGame]
    have h := broadcastMessage_fields { s with active_game := false } (Payload.game_end (finalLeaderboard { s with active_game := false }) "Game finished!") none
    refine ⟨h.2.2.2.2, fun ha => ?_⟩
    have ha' : (broadcastMessage { s with active_game := false } (Payload.game_end (finalLeaderboard { s with active_game := false }) "Game finished!") none).1.active_game = true := ha
    rw [h.1] at ha'
    exact (Bool.false_ne_true ha').elim
  | heartbeat =>
    simp only [step, heartbeat]
    split
    · exact ⟨rfl, hI⟩
    · have h := broadcastMessage_fields s (Payload.heartbeat "server heartbeat") none
      refine ⟨h.2.2.2.2, fun ha => ?_⟩
      rw [h.1] at ha
      rw [h.2.2.1, h.2.2.2.2]
      exact hI ha

/-- The invariant of `udp_step_preserves` holds along every run. -/
theorem udp_run_invariant (acts : List Act) (s : State)
    (hq : 0 < s.questions.length)
    (hI : s.active_game = true → s.current_question_index < s.questions.length) :
    0 < (run s acts).1.questions.length ∧
    ((run s acts).1.active_game = true →
      (run s acts).1.current_question_index < (run s acts).1.questions.length) := by
  induction acts generalizing s with
  | nil => exact ⟨hq, hI⟩
  | cons a rest ih =>
    have hstep := udp_step_preserves s a hq hI
    have hq' : 0 < (step s a).1.questions.length := hstep.1 ▸ hq
    have := ih (step s a).1 hq' hstep.2
    simpa [run] using this

end UDP

/-- C8 (amended): along every run from a lobby state whose question bank is
non-empty, in either transport variant, whenever the game is active the round
index is strictly below the question count.  The other half of the claimed
invariant is false: between `start_game` and the game loop's first round,
`question_start_time` can still be null while `active` is already true, and
with an empty question bank even the index bound fails (see the
counterexample). -/
theorem c8_active_round_index_in_range :
    (∀ (init : TCP.State) (acts : List TCP.Act),
      init.active_game = false → 0 < init.questions.length →
      ((TCP.run init acts).1.active_game = true →
        (TCP.run init acts).1.current_question_index <
          (TCP.run init acts).1.questions.length)) ∧
    (∀ (init : UDP.State) (acts : List UDP.Act),
      init.active_game = false → 0 < init.questions.length →
      ((UDP.run init acts).1.active_game = true →
        (UDP.run init acts).1.current_question_index <
          (UDP.run init acts).1.questions.length)) := by
  constructor
  · intro init acts h0 hq
    exact (TCP.tcp_run_invariant acts init hq
      (fun hact => ((h0 ▸ hact : (false : Bool) = true) |> Bool.false_ne_true).elim)).2
  · intro init acts h0 hq
    exact (UDP.udp_run_invariant acts init hq
      (fun hact => ((h0 ▸ hact : (false : Bool) = true) |> Bool.false_ne_true).elim)).2

/-- Witness instantiating `c8_active_round_index_in_range` on concrete runs of
both variants from fresh one-question servers. -/
theorem c8_active_round_index_in_range_witness :
    TCP.c8StateA.current_question_index < TCP.c8StateA.questions.length ∧
    UDP.c8StateU.current_question_index < UDP.c8StateU.questions.length :=
  ⟨c8_active_round_index_in_range.1 (TCP.initState [Quiz.qA]) TCP.c8Acts rfl (by decide)
    (by decide),
   c8_active_round_index_in_range.2 (UDP.initState [Quiz.qA]) UDP.c8ActsU rfl (by decide)
    (by decide)⟩

/-- C8 counterexample: after `connect; register; start_game` the session is
active but `question_start_time` is still null (`start_game` never sets it;
only the game loop's first round does) — and with an empty question bank the
same run reaches an active state with `current_question_index = 0 =
len(questions)`, violating both conjuncts of the claimed invariant at points
where `handle_client_answer` can observe the state. -/
theorem c8_active_observed_without_start_time :
    TCP.c8StateA.active_game = true ∧ TCP.c8StateA.question_start_time = none ∧
    TCP.c8StateB.active_game = true ∧
    ¬ TCP.c8StateB.current_question_index < TCP.c8StateB.questions.length := by
  refine ⟨by decide, by decide, by decide, by decide⟩

namespace UDP

/-- A computation that sends nothing and keeps the counter is seq-coherent. -/
theorem seqOK_nosend {s t : State} (h : t.seq = s.seq) : SeqOK s (t, []) := by
  simp [SeqOK, h]

/-- `send_message` is seq-coherent: one datagram, stamped `seq + 1`. -/
theorem seqOK_send (s t : State) (a : Addr) (p : Payload) (h : t.seq = s.seq) :
    SeqOK s (sendMessage t a p) := by
  simp [SeqOK, sendMessage, nextSeq, h, List.range']

/-- Sequential composition of seq-coherent computations is seq-coherent. -/
theorem seqOK_comp {s s1 : State} {e1 : List Sent} {out2 : State × List Sent}
    (h1 : SeqOK s (s1, e1)) (h2 : SeqOK s1 out2) :
    SeqOK s (out2.1, e1 ++ out2.2) := by
  obtain ⟨ha, hb⟩ := h1
  obtain ⟨hc, hd⟩ := h2
  have ha' : s1.seq = s.seq + e1.length := ha
  have hc' : out2.1.seq = s1.seq + out2.2.length := hc
  constructor
  · simp only [List.length_append]
    omega
  · simp only [List.map_append, hb, hd, ha', List.length_append]
    have := List.range'_append (s.seq + 1) e1.length out2.2.length 1
    simpa [Nat.add_comm, Nat.add_assoc, Nat.add_left_comm] using this

/-- The broadcast loop is seq-coherent over any address list. -/
theorem seqOK_sendToAll (s t : State) (addrs : List Addr) (p : Payload)
    (h : t.seq = s.seq) : SeqOK s (sendToAll t addrs p) := by
  induction addrs generalizing s t with
  | nil => exact seqOK_nosend h
  | cons a rest ih =>
    have h1 : SeqOK s (sendMessage t a p) := seqOK_send s t a p h
    have h2 : SeqOK (sendMessage t a p).1 (sendToAll (sendMessage t a p).1 rest p) :=
      ih _ _ rfl
    exact seqOK_comp h1 h2

/-- `broadcast_message` is seq-coherent. -/
theorem seqOK_broadcast (s t : State) (p : Payload) (ex : Option Addr)
    (h : t.seq = s.seq) : SeqOK s (broadcastMessage t p ex) :=
  seqOK_sendToAll s t _ p h

/-- Every atomic section of the UDP server is seq-coherent. -/
theorem seqOK_step (s : State) (a : Act) : SeqOK s (step s a) := by
  cases a with
  | register a nm =>
    simp only [step, handleClientRegister]
    split
    · exact seqOK_send s s a _ rfl
    · exact seqOK_send s _ a _ rfl
  | answer a ans now =>
    simp only [step, handleClientAnswer]
    split
    · exact seqOK_nosend rfl
    · split
      · exact seqOK_nosend rfl
      · split
        · exact seqOK_nosend rfl
        · split
          · exact seqOK_nosend rfl
          · split
            · exact seqOK_nosend rfl
            · exact seqOK_send s _ a _ rfl
  | reqStart a =>
    simp only [step, handleRequestStartGame]
    split
    · exact seqOK_send s s a _ rfl
    · split
      · exact seqOK_nosend rfl
      · exact seqOK_send s s a _ rfl
  | getStatus a => exact seqOK_send s s a _ rfl
  | unknownType a => exact seqOK_send s s a _ rfl
  | badJson a => exact seqOK_send s s a _ rfl
  | startGame =>
    simp only [step, startGame]
    split
    · exact seqOK_nosend rfl
    · split
      · exact seqOK_nosend rfl
      · exact seqOK_broadcast s _ _ none rfl
  | beginRound i t =>
    simp only [step, beginRound]
    split
    · split
      · exact seqOK_nosend rfl
      · exact seqOK_broadcast s _ _ none rfl
    · exact seqOK_nosend rfl
  | rebroadcast i =>
    simp only [step, rebroadcast]
    split
    · exact seqOK_nosend rfl
    · exact seqOK_broadcast s s _ none rfl
  | endRound i =>
    simp only [step, endRound]
    split
    · split
      · exact seqOK_nosend rfl
      · exact seqOK_broadcast s s _ none rfl
    · exact seqOK_nosend rfl
  | endGame =>
    have hb := seqOK_broadcast s { s with active_game := false }
      (Payload.game_end (finalLeaderboard { s with active_game := false }) "Game finished!")
      none rfl
    exact ⟨hb.1, hb.2⟩
  | heartbeat =>
    simp only [step, heartbeat]
    split
    · exact seqOK_nosend rfl
    · exact seqOK_broadcast s s _ none rfl

/-- Every run of the UDP server is seq-coherent. -/
theorem seqOK_run (s : State) (acts : List Act) : SeqOK s (run s acts) := by
  induction acts generalizing s with
  | nil => exact seqOK_nosend rfl
  | cons a rest ih =>
    have h1 : SeqOK s ((step s a).1, (step s a).2) := seqOK_step s a
    have h2 := ih (step s a).1
    exact seqOK_comp h1 h2

end UDP

/-- C9 (amended): every outbound datagram carries a sequence number stamped by
`_next_seq` inside `send_message`, the single exit point for `sendto`; across
any *serialized* order of the send sections — any two sends where one
`send_message` call completes before the other begins, e.g. all sends made
under `game_lock` or by a single thread — the datagrams carry exactly the
consecutive numbers above the initial counter, hence strictly increasing
regardless of message type or destination.  The original claim's unconditional
process-wide guarantee is false: the game loop's question broadcast and
rebroadcast send without holding `game_lock`, concurrently with the main
thread's heartbeat and status/error replies; `self.seq += 1` is not atomic and
a thread can be preempted between stamping the number and calling `sendto`,
so genuinely overlapping sends can emit duplicate or out-of-order sequence
numbers (see the counterexample on `microRun`). -/
theorem c9_seq_strictly_increasing :
    ∀ (s : UDP.State) (acts : List UDP.Act),
      UDP.SeqOK s (UDP.run s acts) ∧
      ((UDP.run s acts).2.map UDP.Sent.seq =
        List.range' (s.seq + 1) (UDP.run s acts).2.length) ∧
      List.Pairwise (· < ·) ((UDP.run s acts).2.map UDP.Sent.seq) := by
  intro s acts
  have h := UDP.seqOK_run s acts
  refine ⟨h, h.2, ?_⟩
  rw [h.2]
  exact List.pairwise_lt_range' (s.seq + 1) (UDP.run s acts).2.length

/-- C9 counterexample: two `send_message` calls racing at CPython
attribute-access granularity.  In the first schedule both threads read the
counter at 0 before either writes, so both datagrams go out stamped 1 — the
later message does not carry a strictly greater number.  In the second
schedule thread `a` stamps 1 but is preempted before `sendto`, thread `b`
stamps 2 and sends, then thread `a` sends: the emission order is [2, 1],
strictly decreasing.  Neither send site holds `game_lock` in the source
(question broadcast and rebroadcast on the game-loop thread; heartbeat,
status and error replies on the main thread), so such overlap is possible. -/
theorem c9_concurrent_sends_break_monotonicity :
    UDP.microRun 0 UDP.initThread UDP.initThread
      [false, true, false, true, false, false, true, true] = [1, 1] ∧
    ¬ List.Pairwise (· < ·)
      (UDP.microRun 0 UDP.initThread UDP.initThread
        [false, true, false, true, false, false, true, true]) ∧
    UDP.microRun 0 UDP.initThread UDP.initThread
      [false, false, false, true, true, true, true, false] = [2, 1] ∧
    ¬ List.Pairwise (· < ·)
      (UDP.microRun 0 UDP.initThread UDP.initThread
        [false, false, false, true, true, true, true, false]) := by
  refine ⟨by decide, by decide, by decide, by decide⟩
